import Mathlib

/-!
# Verification of the opportunity-ingestion control plane

A shallow embedding, in Lean 4, of the core operations of the
`sloppy-jobulator` repository: the publish decision, the job-result retry
path, the extract-projection posting upsert, the discovery ingestor, the
candidate merge, the dedupe scorer/policy, and the URL canonicalizer.

Conventions:
* Python `str` is modeled as Lean `String` (a sequence of Unicode scalar
  values, matching CPython's `str`); where character-level work is needed we
  work on `List Char`.
* Python `float` is modeled as `ℚ` (the float literals appearing in the
  source are exact decimals and all arithmetic on them in the modeled paths
  is comparison/addition/multiplication, so exact rationals are a faithful
  abstraction for the properties proved here).
* Python `None`-able values are `Option`; Python exceptions are `Except`.
* SQL timestamps are abstract instants modeled as `Int` (seconds); `now()`
  is passed explicitly.
* `str.lower()` / `str.casefold()` are modeled on the ASCII range (all
  enum-like strings handled by the repository are ASCII).
-/

namespace SJ

/-! ## Small Python-string helpers -/

/-- ASCII lowercase of one character (model of `str.lower` per character). -/
def asciiLowerChar (c : Char) : Char :=
  if 'A' ≤ c ∧ c ≤ 'Z' then Char.ofNat (c.toNat + 32) else c

/-- Model of Python `str.lower()` (ASCII range). -/
def pyLower (s : String) : String :=
  ⟨s.data.map asciiLowerChar⟩

/-- Model of Python `str.casefold()` (ASCII range, where it agrees with lower). -/
def pyCasefold (s : String) : String :=
  pyLower s

/-- Python whitespace characters stripped by `str.strip()` (ASCII subset). -/
def isPySpace (c : Char) : Bool :=
  c = ' ' || c = '\t' || c = '\n' || c = '\r' || c = '\x0b' || c = '\x0c'

/-- Model of Python `str.strip()` on a character list. -/
def pyStripList (l : List Char) : List Char :=
  ((l.dropWhile isPySpace).reverse.dropWhile isPySpace).reverse

/-- Model of Python `str.strip()`. -/
def pyStrip (s : String) : String :=
  ⟨pyStripList s.data⟩

/-- The `startsWithL hay needle`: does `hay` begin with `needle`? -/
def startsWithL : List Char → List Char → Bool
  | _, [] => true
  | [], _ :: _ => false
  | a :: as, b :: bs => a = b && startsWithL as bs

/-- Model of Python `needle in hay` (substring containment). -/
def containsSubL (hay needle : List Char) : Bool :=
  match hay with
  | [] => startsWithL [] needle
  | _ :: t => startsWithL hay needle || containsSubL t needle

/-- Substring containment on `String` (Python `needle in hay`). -/
def strContains (hay needle : String) : Bool :=
  containsSubL hay.data needle.data

/-- Python truthiness of an optional string: `None` and `""` are falsy. -/
def pyTruthy : Option String → Bool
  | none => false
  | some s => s ≠ ""

/-- One step of the strip/casefold dedupe loop shared by
`_merge_risk_flags` (repository.py:4016) and `_dedupe_text_list`
(dedupe.py:420): accumulates `(seen keys, merged values)`. -/
def mergeRiskFlagsStep (acc : List String × List String) (value : String) :
    List String × List String :=
  let normalized := pyStrip value
  if normalized = "" then acc
  else
    let key := pyCasefold normalized
    if key ∈ acc.1 then acc
    else (key :: acc.1, acc.2 ++ [normalized])

/-- Model of `PostgresRepository._merge_risk_flags(*groups)`. -/
def merge_risk_flags (groups : List (List String)) : List String :=
  (groups.flatten.foldl mergeRiskFlagsStep ([], [])).2

/-!
## A model of the parts of `urllib.parse` used by the repository

`src/api/app/core/urls.py` builds on `urlparse`, `parse_qsl`, `urlencode`
and `urlunparse`; `src/api/app/services/dedupe.py` additionally uses
`urlparse(...).hostname`.  The model below follows CPython's
`urllib/parse.py`.  Strings are `List Char` here (Python `str` is a
sequence of Unicode scalar values).  Two deliberate modeling boundaries,
both irrelevant to the properties proved in this file: bracketed (IPv6)
hosts are accepted whenever the brackets are balanced (CPython additionally
validates the address inside), and the NFKC safety check of `_checknetloc`
is modeled as passing for non-ASCII netlocs.
-/

namespace PyUrl

/-- The `_WHATWG_C0_CONTROL_OR_SPACE`: code points `U+0000`–`U+0020`. -/
def isC0ControlOrSpace (c : Char) : Bool :=
  c.toNat ≤ 0x20

/-- The leading/trailing strip performed by `urlsplit`. -/
def stripC0 (l : List Char) : List Char :=
  ((l.dropWhile isC0ControlOrSpace).reverse.dropWhile isC0ControlOrSpace).reverse

/-- The `_UNSAFE_URL_BYTES_TO_REMOVE = ["\t", "\r", "\n"]`. -/
def removeUnsafe (l : List Char) : List Char :=
  l.filter (fun c => ¬ (c = '\t' ∨ c = '\r' ∨ c = '\n'))

def isAsciiAlpha (c : Char) : Bool :=
  ('a' ≤ c ∧ c ≤ 'z') ∨ ('A' ≤ c ∧ c ≤ 'Z')

def isAsciiDigit (c : Char) : Bool :=
  '0' ≤ c ∧ c ≤ '9'

/-- The `scheme_chars = letters + digits + '+-.'`. -/
def isSchemeChar (c : Char) : Bool :=
  isAsciiAlpha c || isAsciiDigit c || c = '+' || c = '-' || c = '.'

/-- Split at the first occurrence of `sep`: `some (before, after)` or `none`
when `sep` does not occur (Python `s.split(sep, 1)` / `s.partition(sep)`). -/
def splitOnceChar (sep : Char) : List Char → Option (List Char × List Char)
  | [] => none
  | c :: rest =>
    if c = sep then some ([], rest)
    else match splitOnceChar sep rest with
      | some (before, after) => some (c :: before, after)
      | none => none

/-- Split at the last occurrence of `sep` (Python `s.rsplit(sep, 1)` /
`s.rpartition(sep)`). -/
def rsplitOnceChar (sep : Char) (l : List Char) : Option (List Char × List Char) :=
  match splitOnceChar sep l.reverse with
  | some (before, after) => some (after.reverse, before.reverse)
  | none => none

/-- Python `s.split(sep)` (no maxsplit): always at least one segment. -/
def splitAllChar (sep : Char) : List Char → List (List Char)
  | [] => [[]]
  | c :: rest =>
    let segs := splitAllChar sep rest
    if c = sep then [] :: segs
    else match segs with
      | s :: ss => (c :: s) :: ss
      | [] => [[c]]

/-- Python `sep.join(parts)` for a one-character separator. -/
def joinChar (sep : Char) : List (List Char) → List Char
  | [] => []
  | [s] => s
  | s :: rest => s ++ sep :: joinChar sep rest

/-- ASCII lowercase on a character list (model of `str.lower()`; the strings
this file evaluates it on are ASCII). -/
def lowerL (l : List Char) : List Char :=
  l.map asciiLowerChar

/-- The result of `urlsplit` (`scheme, netloc, path, query, fragment`). -/
structure SplitResult where
  scheme : List Char
  netloc : List Char
  path : List Char
  query : List Char
  fragment : List Char
deriving DecidableEq, Repr

/-- Scheme detection of `urlsplit`: the part before the first `':'` is a
scheme iff it is nonempty, starts with an ASCII letter, and consists of
scheme characters.  Returns `(scheme lowered, rest)`. -/
def splitScheme (url : List Char) : List Char × List Char :=
  match splitOnceChar ':' url with
  | none => ([], url)
  | some (before, after) =>
    match before with
    | [] => ([], url)
    | c0 :: _ =>
      if isAsciiAlpha c0 ∧ before.all isSchemeChar then (lowerL before, after)
      else ([], url)

/-- The `_splitnetloc(url, 2)`: everything after `//` up to the first
`'/'`, `'?'` or `'#'`. -/
def splitNetloc (rest : List Char) : List Char × List Char :=
  let netloc := rest.takeWhile (fun c => ¬ (c = '/' ∨ c = '?' ∨ c = '#'))
  (netloc, rest.drop netloc.length)

/-- Model of `urllib.parse.urlsplit` (with `allow_fragments=True`).
`ValueError` (unbalanced brackets in the netloc) is `.error ()`. -/
def urlsplit (url0 : List Char) : Except Unit SplitResult := do
  let url := removeUnsafe (stripC0 url0)
  let (scheme, url) := splitScheme url
  let (netloc, url) :=
    if url.take 2 = ['/', '/'] then splitNetloc (url.drop 2) else ([], url)
  if ('[' ∈ netloc ∧ ']' ∉ netloc) ∨ (']' ∈ netloc ∧ '[' ∉ netloc) then
    throw ()
  let (url, fragment) :=
    match splitOnceChar '#' url with
    | some (before, after) => (before, after)
    | none => (url, [])
  let (url, query) :=
    match splitOnceChar '?' url with
    | some (before, after) => (before, after)
    | none => (url, [])
  return { scheme := scheme, netloc := netloc, path := url
           query := query, fragment := fragment }

/-- The result of `urlparse` (adds `params`). -/
structure ParseResult where
  scheme : List Char
  netloc : List Char
  path : List Char
  params : List Char
  query : List Char
  fragment : List Char
deriving DecidableEq, Repr

/-- The `uses_params` from `urllib/parse.py`. -/
def usesParams : List (List Char) :=
  ["".data, "ftp".data, "hdl".data, "prospero".data, "http".data, "imap".data,
   "https".data, "shttp".data, "rtsp".data, "rtspu".data, "sip".data,
   "sips".data, "mms".data, "sftp".data, "tel".data]

/-- The `_splitparams(url)`. -/
def splitParams (url : List Char) : List Char × List Char :=
  if '/' ∈ url then
    match rsplitOnceChar '/' url with
    | some (before, lastSeg) =>
      match splitOnceChar ';' lastSeg with
      | some (segBefore, after) => (before ++ '/' :: segBefore, after)
      | none => (url, [])
    | none => (url, [])
  else
    match splitOnceChar ';' url with
    | some (before, after) => (before, after)
    | none => (url, [])

/-- Model of `urllib.parse.urlparse`. -/
def urlparse (url : List Char) : Except Unit ParseResult := do
  let s ← urlsplit url
  let (path, params) :=
    if s.scheme ∈ usesParams ∧ ';' ∈ s.path then splitParams s.path
    else (s.path, [])
  return { scheme := s.scheme, netloc := s.netloc, path := path
           params := params, query := s.query, fragment := s.fragment }

/-- The `hostname` property of a parse result: userinfo dropped
(`rpartition('@')`), brackets handled, port dropped, lowercased; `None` when
empty. -/
def hostname (netloc : List Char) : Option (List Char) :=
  let hostinfo :=
    match rsplitOnceChar '@' netloc with
    | some (_, after) => after
    | none => netloc
  let host :=
    if '[' ∈ hostinfo then
      match splitOnceChar '[' hostinfo with
      | some (_, bracketed) =>
        match splitOnceChar ']' bracketed with
        | some (h, _) => h
        | none => bracketed
      | none => hostinfo
    else
      match splitOnceChar ':' hostinfo with
      | some (h, _) => h
      | none => hostinfo
  if host = [] then none else some (lowerL host)

/-!
### Percent encoding / decoding and query strings
-/

/-- UTF-8 encoding of one scalar value. -/
def utf8EncodeChar (c : Char) : List Nat :=
  let n := c.toNat
  if n < 0x80 then [n]
  else if n < 0x800 then [0xC0 + n / 64, 0x80 + n % 64]
  else if n < 0x10000 then
    [0xE0 + n / 4096, 0x80 + (n / 64) % 64, 0x80 + n % 64]
  else
    [0xF0 + n / 262144, 0x80 + (n / 4096) % 64, 0x80 + (n / 64) % 64,
     0x80 + n % 64]

/-- UTF-8 encoding of a string (Python `s.encode('utf-8')`). -/
def utf8Encode (l : List Char) : List Nat :=
  l.flatMap utf8EncodeChar

/-- The replacement character U+FFFD used by `errors='replace'`. -/
def replacementChar : Char := Char.ofNat 0xFFFD

/-- Is `b` a UTF-8 continuation byte? -/
def isCont (b : Nat) : Bool := 0x80 ≤ b ∧ b ≤ 0xBF

/-- UTF-8 decoding with `errors='replace'` (maximal-subpart policy, as
CPython). -/
def utf8DecodeReplace : List Nat → List Char
  | [] => []
  | b0 :: rest =>
    if b0 < 0x80 then Char.ofNat b0 :: utf8DecodeReplace rest
    else if 0xC2 ≤ b0 ∧ b0 ≤ 0xDF then
      match rest with
      | b1 :: rest2 =>
        if isCont b1 then
          Char.ofNat ((b0 - 0xC0) * 64 + (b1 - 0x80)) :: utf8DecodeReplace rest2
        else replacementChar :: utf8DecodeReplace (b1 :: rest2)
      | [] => [replacementChar]
    else if 0xE0 ≤ b0 ∧ b0 ≤ 0xEF then
      match rest with
      | b1 :: rest2 =>
        if (if b0 = 0xE0 then 0xA0 else 0x80) ≤ b1 ∧
            b1 ≤ (if b0 = 0xED then 0x9F else 0xBF) then
          match rest2 with
          | b2 :: rest3 =>
            if isCont b2 then
              Char.ofNat ((b0 - 0xE0) * 4096 + (b1 - 0x80) * 64 + (b2 - 0x80)) ::
                utf8DecodeReplace rest3
            else replacementChar :: utf8DecodeReplace (b2 :: rest3)
          | [] => [replacementChar]
        else replacementChar :: utf8DecodeReplace (b1 :: rest2)
      | [] => [replacementChar]
    else if 0xF0 ≤ b0 ∧ b0 ≤ 0xF4 then
      match rest with
      | b1 :: rest2 =>
        if (if b0 = 0xF0 then 0x90 else 0x80) ≤ b1 ∧
            b1 ≤ (if b0 = 0xF4 then 0x8F else 0xBF) then
          match rest2 with
          | b2 :: rest3 =>
            if isCont b2 then
              match rest3 with
              | b3 :: rest4 =>
                if isCont b3 then
                  Char.ofNat ((b0 - 0xF0) * 262144 + (b1 - 0x80) * 4096 +
                    (b2 - 0x80) * 64 + (b3 - 0x80)) :: utf8DecodeReplace rest4
                else replacementChar :: utf8DecodeReplace (b3 :: rest4)
              | [] => [replacementChar]
            else replacementChar :: utf8DecodeReplace (b2 :: rest3)
          | [] => [replacementChar]
        else replacementChar :: utf8DecodeReplace (b1 :: rest2)
      | [] => [replacementChar]
    else replacementChar :: utf8DecodeReplace rest
  termination_by l => l.length
  decreasing_by all_goals (simp_wf <;> omega)

/-- Hex digit value (both cases), as `_hextobyte`. -/
def hexVal (c : Char) : Option Nat :=
  if isAsciiDigit c then some (c.toNat - '0'.toNat)
  else if 'a' ≤ c ∧ c ≤ 'f' then some (c.toNat - 'a'.toNat + 10)
  else if 'A' ≤ c ∧ c ≤ 'F' then some (c.toNat - 'A'.toNat + 10)
  else none

/-- The `unquote_to_bytes` on one chunk following a `'%'`: two leading hex
digits become a byte, otherwise the `'%'` stays literal. -/
def percentChunkBytes (chunk : List Char) : List Nat :=
  match chunk with
  | c1 :: c2 :: rest =>
    match hexVal c1, hexVal c2 with
    | some h1, some h2 => (h1 * 16 + h2) :: rest.flatMap utf8EncodeChar
    | _, _ => '%'.toNat :: chunk.flatMap utf8EncodeChar
  | _ => '%'.toNat :: chunk.flatMap utf8EncodeChar

/-- The `unquote_to_bytes` on an ASCII run (the run's characters are ASCII, so
their UTF-8 bytes are their code points). -/
def unquoteToBytes (l : List Char) : List Nat :=
  match splitAllChar '%' l with
  | [] => []
  | first :: chunks =>
    first.flatMap utf8EncodeChar ++ chunks.flatMap percentChunkBytes

/-- Maximal ASCII / non-ASCII segmentation used by `unquote`
(`_asciire = re.compile('([\x00-\x7f]+)')`): ASCII runs are percent-decoded
and UTF-8-decoded with `errors='replace'`; other characters pass through. -/
def unquoteSegments : List Char → List Char
  | [] => []
  | c :: rest =>
    if c.toNat ≤ 0x7F then
      let run := rest.takeWhile (fun d => d.toNat ≤ 0x7F)
      let tail := rest.drop run.length
      utf8DecodeReplace (unquoteToBytes (c :: run)) ++ unquoteSegments tail
    else
      c :: unquoteSegments rest
  termination_by l => l.length
  decreasing_by
    · simp only [List.length_cons, List.length_drop]
      omega
    · simp

/-- Model of `urllib.parse.unquote` (with `encoding='utf-8'`,
`errors='replace'`). -/
def unquote (l : List Char) : List Char :=
  if '%' ∉ l then l else unquoteSegments l

/-- The `unquote_plus`: `'+'` to space, then `unquote`. -/
def unquote_plus (l : List Char) : List Char :=
  unquote (l.map (fun c => if c = '+' then ' ' else c))

/-- Model of `urllib.parse.parse_qsl(qs, keep_blank_values=True)`. -/
def parse_qsl (qs : List Char) : List (List Char × List Char) :=
  let query_args := if qs = [] then [] else splitAllChar '&' qs
  query_args.filterMap (fun nv =>
    if nv = [] then none
    else
      match splitOnceChar '=' nv with
      | some (n, v) => some (unquote_plus n, unquote_plus v)
      | none => some (unquote_plus nv, unquote_plus []))

/-- The `ALWAYS_SAFE` bytes of `quote`: ASCII letters, digits, `_.-~`. -/
def alwaysSafeByte (b : Nat) : Bool :=
  (0x41 ≤ b ∧ b ≤ 0x5A) || (0x61 ≤ b ∧ b ≤ 0x7A) ||
  (0x30 ≤ b ∧ b ≤ 0x39) || b = '_'.toNat || b = '.'.toNat ||
  b = '-'.toNat || b = '~'.toNat

/-- Uppercase hex digit. -/
def hexDigitUpper (n : Nat) : Char :=
  if n < 10 then Char.ofNat ('0'.toNat + n) else Char.ofNat ('A'.toNat + n - 10)

/-- Model of `urllib.parse.quote_plus(s, safe='')`: UTF-8 bytes, space to
`'+'`, safe bytes literal, the rest `%XX`. -/
def quote_plus (l : List Char) : List Char :=
  (utf8Encode l).flatMap (fun b =>
    if b = ' '.toNat then ['+']
    else if alwaysSafeByte b then [Char.ofNat b]
    else ['%', hexDigitUpper (b / 16), hexDigitUpper (b % 16)])

/-- Model of `urllib.parse.urlencode(pairs, doseq=True)` for string pairs
(the shape produced by `parse_qsl`). -/
def urlencode (pairs : List (List Char × List Char)) : List Char :=
  joinChar '&' (pairs.map (fun p => quote_plus p.1 ++ '=' :: quote_plus p.2))

/-- Model of `urllib.parse.urlunsplit`. -/
def urlunsplit (scheme netloc url query fragment : List Char) : List Char :=
  let url :=
    if netloc ≠ [] ∨ (url ≠ [] ∧ url.take 2 = ['/', '/']) then
      let url := if url ≠ [] ∧ url.take 1 ≠ ['/'] then '/' :: url else url
      '/' :: '/' :: (netloc ++ url)
    else url
  let url := if scheme ≠ [] then scheme ++ ':' :: url else url
  let url := if query ≠ [] then url ++ '?' :: query else url
  if fragment ≠ [] then url ++ '#' :: fragment else url

/-- Model of `urllib.parse.urlunparse`. -/
def urlunparse (scheme netloc url params query fragment : List Char) : List Char :=
  let url := if params ≠ [] then url ++ ';' :: params else url
  urlunsplit scheme netloc url query fragment

end PyUrl

/-!
## The URL canonicalizer: `normalize_url` (src/api/app/core/urls.py)
-/

/-- The `TRACKING_KEYS = {"ref", "fbclid", "gclid"}` and the `utm_` test of
`_is_tracking_param`. -/
def is_tracking_param (key : List Char) : Bool :=
  startsWithL key "utm_".data || key = "ref".data || key = "fbclid".data ||
  key = "gclid".data

/-- Lexicographic `≤` on character lists, as Python compares `str` keys in
`list.sort(key=...)` (code-point order, prefix first). -/
def charListLe : List Char → List Char → Bool
  | [], _ => true
  | _ :: _, [] => false
  | a :: as, b :: bs =>
    if a < b then true else if a = b then charListLe as bs else false

/-- Model of `normalize_url` from `src/api/app/core/urls.py`: strip, parse,
lowercase scheme and netloc, drop a default port, default the path to `/`
and strip exactly one trailing slash, drop tracking query parameters, sort
the remaining pairs by key (stably) and re-encode, drop params and
fragment. -/
def normalize_url (raw_url : List Char) : Except Unit (List Char) := do
  let parsed ← PyUrl.urlparse (pyStripList raw_url)
  let scheme := PyUrl.lowerL parsed.scheme
  let netloc := PyUrl.lowerL parsed.netloc
  let netloc :=
    if ':' ∈ netloc then
      match PyUrl.rsplitOnceChar ':' netloc with
      | some (host, port) =>
        if (scheme = "http".data ∧ port = "80".data) ∨
            (scheme = "https".data ∧ port = "443".data) then host
        else netloc
      | none => netloc
    else netloc
  let path := if parsed.path = [] then ['/'] else parsed.path
  let path :=
    if path ≠ ['/'] ∧ path.getLast? = some '/' then path.dropLast else path
  let filtered_query_pairs :=
    (PyUrl.parse_qsl parsed.query).filter (fun kv => ¬ is_tracking_param kv.1)
  let sorted_pairs := filtered_query_pairs.insertionSort
    (fun a b => charListLe a.1 b.1 = true)
  let query := PyUrl.urlencode sorted_pairs
  return PyUrl.urlunparse scheme netloc path [] query []

/-!
## The dedupe scorer (`src/api/app/services/dedupe.py`)

Pure scoring over candidate snapshots.  Python floats are modeled as exact
rationals: every number entering the score is a decimal literal or a
Jaccard ratio, and only order comparisons and the final tie-break matter
for the properties proved here.  `round(x, 4)` is modeled as half-even
rounding of the exact rational.
-/

structure NamedEntities where
  organizations : List String
  locations : List String
  people : List String
deriving DecidableEq, Repr

structure DedupeCandidateSnapshot where
  candidate_id : String
  canonical_hash : Option String
  normalized_url : Option String
  canonical_url : Option String
  application_url : Option String
  title : Option String
  organization_name : Option String
  description_text : Option String
  tags : List String
  areas : List String
  country : Option String
  region : Option String
  city : Option String
  named_entities : NamedEntities
  contact_domains : List String
  has_posting : Bool
deriving DecidableEq, Repr

/-- The `components` dict of a `DedupeScore`. -/
structure ScoreComponents where
  title_similarity : ℚ
  organization_similarity : ℚ
  phrase_similarity : ℚ
  org_ner_overlap : ℚ
  location_overlap : ℚ
  person_overlap : ℚ
  domain_overlap : ℚ
  contact_domain_overlap : ℚ
  medium_score : ℚ
  tie_break_score : ℚ
deriving DecidableEq, Repr

structure DedupeScore where
  candidate_id : String
  confidence : ℚ
  strong_signals : List String
  risk_flags : List String
  has_posting : Bool
  components : ScoreComponents
deriving DecidableEq, Repr

/-- One entry of `metadata["ranked_candidates"]`. -/
structure RankedCandidateSummary where
  candidate_id : String
  confidence : ℚ
  strong_signals : List String
  risk_flags : List String
deriving DecidableEq, Repr

/-- The metadata dict of a non-empty policy evaluation. -/
structure MergePolicyMetadata where
  auto_merge_threshold : ℚ
  review_threshold : ℚ
  ambiguity_delta : ℚ
  selected_candidate_id : String
  selected_components : ScoreComponents
  selected_strong_signals : List String
  selected_risk_flags : List String
  ranked_candidates : List RankedCandidateSummary
deriving DecidableEq, Repr

/-- The `DedupePolicyDecision`; `metadata = none` models the
`{"reason": "no_merge_candidates"}` dict of the empty case. -/
structure DedupePolicyDecision where
  decision : String
  primary_candidate_id : Option String
  confidence : Option ℚ
  risk_flags : List String
  metadata : Option MergePolicyMetadata
deriving DecidableEq, Repr

/-- The `round(x, 4)` on an exact rational (ties to even). -/
def pyRound4 (x : ℚ) : ℚ :=
  let y := x * 10000
  let f : ℤ := ⌊y⌋
  let r := y - f
  let n : ℤ :=
    if r < 1 / 2 then f
    else if 1 / 2 < r then f + 1
    else if f % 2 = 0 then f else f + 1
  (n : ℚ) / 10000

/-- The `_equals(left, right) = bool(left and right and left == right)`. -/
def _equals (left right : Option String) : Bool :=
  pyTruthy left && pyTruthy right && left.getD "" = right.getD ""

/-- The token alphabet `[a-z0-9]` of `_TOKEN_RE`. -/
def isTokenChar (c : Char) : Bool :=
  ('a' ≤ c ∧ c ≤ 'z') || ('0' ≤ c ∧ c ≤ '9')

/-- The `findall` of `_TOKEN_RE`: the maximal `[a-z0-9]+` runs, in order. -/
def tokenRunsAux : List Char → List Char → List String
  | [], acc => if acc.isEmpty then [] else [String.mk acc.reverse]
  | c :: rest, acc =>
    if isTokenChar c then tokenRunsAux rest (c :: acc)
    else if acc.isEmpty then tokenRunsAux rest []
    else String.mk acc.reverse :: tokenRunsAux rest []

def tokenRuns (l : List Char) : List String :=
  tokenRunsAux l []

def _STOP_WORDS : List String :=
  ["a", "an", "and", "at", "for", "from", "in", "of", "on", "or", "the",
   "to", "with"]

/-- The `_tokenize`: casefold, split into `[a-z0-9]+` runs, drop stopwords. -/
def _tokenize (value : Option String) : Finset String :=
  if ¬ pyTruthy value then ∅
  else ((tokenRuns (pyCasefold (value.getD "")).data).filter
    (fun t => t ≠ "" ∧ t ∉ _STOP_WORDS)).toFinset

/-- The `_jaccard`. -/
def _jaccard (left right : Finset String) : ℚ :=
  if left = ∅ ∨ right = ∅ then 0
  else
    let intersection := (left ∩ right).card
    let union := (left ∪ right).card
    if union ≤ 0 then 0 else (intersection : ℚ) / (union : ℚ)

/-- The `_normalized_set`. -/
def _normalized_set (values : List String) : Finset String :=
  ((values.filter (fun v => v ≠ "")).map pyCasefold).toFinset

/-- The `_phrase_tokens`: tags ∪ areas ∪ description, joined and tokenized. -/
def _phrase_tokens (c : DedupeCandidateSnapshot) : Finset String :=
  let terms := c.tags ++ c.areas ++
    (if pyTruthy c.description_text then [c.description_text.getD ""] else [])
  _tokenize (some (String.intercalate " " terms))

/-- The `_organization_similarity`. -/
def _organization_similarity (left right : Option String) : ℚ :=
  if ¬ pyTruthy left ∨ ¬ pyTruthy right then 0
  else if pyCasefold (left.getD "") = pyCasefold (right.getD "") then 1
  else _jaccard (_tokenize left) (_tokenize right)

/-- The `_location_set`. -/
def _location_set (c : DedupeCandidateSnapshot) : Finset String :=
  _normalized_set [c.country.getD "", c.region.getD "", c.city.getD ""]

/-- The `_parse_host`: hostname of `urlparse`, stripped and lowered, `None`
when absent (the `urlparse` `ValueError` propagates). -/
def _parse_host (raw_url : Option String) : Except Unit (Option String) :=
  if ¬ pyTruthy raw_url then .ok none
  else do
    let parsed ← PyUrl.urlparse (raw_url.getD "").data
    match PyUrl.hostname parsed.netloc with
    | none => return none
    | some host =>
      let normalized := PyUrl.lowerL (pyStripList host)
      if normalized = [] then return none else return some (String.mk normalized)

/-- The `_domain_set`. -/
def _domain_set (c : DedupeCandidateSnapshot) : Except Unit (Finset String) := do
  let h1 ← _parse_host c.canonical_url
  let h2 ← _parse_host c.normalized_url
  let h3 ← _parse_host c.application_url
  return _normalized_set ([h1, h2, h3].filterMap id)

/-- The `_dedupe_text_list`: strip, drop empties, case-insensitive dedupe
keeping first spellings in order. -/
def _dedupe_text_list (values : List String) : List String :=
  (values.foldl mergeRiskFlagsStep ([], [])).2

/-- The `_score_risk_flags`. -/
def _score_risk_flags (incoming existing : DedupeCandidateSnapshot)
    (confidence : ℚ) (strong_signals : List String)
    (title_similarity organization_similarity : ℚ) : List String :=
  let risk_flags : List String :=
    if strong_signals.isEmpty ∧ (0.72 : ℚ) ≤ confidence
    then ["manual_review_low_signal"] else []
  let risk_flags :=
    if pyTruthy incoming.canonical_hash ∧ pyTruthy existing.canonical_hash ∧
        incoming.canonical_hash ≠ existing.canonical_hash ∧
        (_equals incoming.normalized_url existing.normalized_url ∨
         _equals incoming.canonical_url existing.canonical_url)
    then risk_flags ++ ["conflict_hash_mismatch"] else risk_flags
  let risk_flags :=
    if ¬ strong_signals.isEmpty ∧ pyTruthy incoming.organization_name ∧
        pyTruthy existing.organization_name ∧ organization_similarity < 0.25
    then risk_flags ++ ["conflict_organization_mismatch"] else risk_flags
  let risk_flags :=
    if ¬ strong_signals.isEmpty ∧ pyTruthy incoming.title ∧
        pyTruthy existing.title ∧ title_similarity < 0.25
    then risk_flags ++ ["conflict_title_mismatch"] else risk_flags
  let risk_flags :=
    if pyTruthy incoming.application_url ∧ pyTruthy existing.application_url ∧
        incoming.application_url ≠ existing.application_url ∧
        ¬ strong_signals.isEmpty
    then risk_flags ++ ["conflict_application_url_mismatch"] else risk_flags
  _dedupe_text_list risk_flags

/-- Model of `score_candidate_pair`. -/
def score_candidate_pair (incoming existing : DedupeCandidateSnapshot) :
    Except Unit DedupeScore :=
  let strong_signals : List String :=
    (if _equals incoming.canonical_hash existing.canonical_hash
      then ["canonical_hash"] else []) ++
    (if _equals incoming.normalized_url existing.normalized_url
      then ["normalized_url"] else []) ++
    (if _equals incoming.canonical_url existing.canonical_url
      then ["canonical_url"] else []) ++
    (if _equals incoming.application_url existing.application_url
      then ["application_url"] else [])
  let score : ℚ :=
    (if _equals incoming.canonical_hash existing.canonical_hash
      then (0.65 : ℚ) else 0) +
    (if _equals incoming.normalized_url existing.normalized_url
      then (0.20 : ℚ) else 0) +
    (if _equals incoming.canonical_url existing.canonical_url
      then (0.15 : ℚ) else 0) +
    (if _equals incoming.application_url existing.application_url
      then (0.10 : ℚ) else 0)
  let title_similarity :=
    _jaccard (_tokenize incoming.title) (_tokenize existing.title)
  let organization_similarity :=
    _organization_similarity incoming.organization_name existing.organization_name
  let phrase_similarity :=
    _jaccard (_phrase_tokens incoming) (_phrase_tokens existing)
  let medium_score := 0.45 * title_similarity + 0.25 * organization_similarity +
    0.10 * phrase_similarity
  let score := score + medium_score
  let org_ner_overlap := _jaccard
    (_normalized_set incoming.named_entities.organizations)
    (_normalized_set existing.named_entities.organizations)
  let location_overlap := _jaccard
    (_normalized_set incoming.named_entities.locations ∪ _location_set incoming)
    (_normalized_set existing.named_entities.locations ∪ _location_set existing)
  let person_overlap := _jaccard
    (_normalized_set incoming.named_entities.people)
    (_normalized_set existing.named_entities.people)
  match _domain_set incoming, _domain_set existing with
  | .error e, _ => .error e
  | .ok _, .error e => .error e
  | .ok dIn, .ok dEx =>
    let domain_overlap := _jaccard dIn dEx
    let contact_domain_overlap := _jaccard
      (_normalized_set incoming.contact_domains)
      (_normalized_set existing.contact_domains)
    let tie_break_score := 0.10 * org_ner_overlap + 0.05 * location_overlap +
      0.05 * person_overlap + 0.05 * domain_overlap +
      0.05 * contact_domain_overlap
    let score := score + tie_break_score
    let score := if strong_signals.isEmpty then min score 0.89 else score
    let confidence := min score 0.9999
    let risk_flags := _score_risk_flags incoming existing confidence
      strong_signals title_similarity organization_similarity
    .ok {
      candidate_id := existing.candidate_id
      confidence := confidence
      strong_signals := strong_signals
      risk_flags := risk_flags
      has_posting := existing.has_posting
      components :=
        { title_similarity := pyRound4 title_similarity
          organization_similarity := pyRound4 organization_similarity
          phrase_similarity := pyRound4 phrase_similarity
          org_ner_overlap := pyRound4 org_ner_overlap
          location_overlap := pyRound4 location_overlap
          person_overlap := pyRound4 person_overlap
          domain_overlap := pyRound4 domain_overlap
          contact_domain_overlap := pyRound4 contact_domain_overlap
          medium_score := pyRound4 medium_score
          tie_break_score := pyRound4 tie_break_score } }

/-- The ranking order of `sorted(scores, key=lambda row:
(-row.confidence, row.candidate_id))`: ascending in the pair
`(-confidence, candidate_id)`. -/
def rankLe (a b : DedupeScore) : Prop :=
  b.confidence < a.confidence ∨
    (a.confidence = b.confidence ∧
      charListLe a.candidate_id.data b.candidate_id.data = true)

instance : DecidableRel rankLe := fun a b => by
  unfold rankLe; infer_instance

/-- The decision of the empty-candidates case
(`{"reason": "no_merge_candidates"}`). -/
def noMergeCandidatesDecision : DedupePolicyDecision :=
  { decision := "none", primary_candidate_id := none, confidence := none
    risk_flags := [], metadata := none }

/-- The tail of `evaluate_merge_policy` below the ranking: everything here
is a function of the ranked list and the thresholds. -/
def decision_from_ranked (auto_merge_threshold review_threshold
    ambiguity_delta : ℚ) (ranked : List DedupeScore) : DedupePolicyDecision :=
  match ranked with
  | [] => noMergeCandidatesDecision
  | best :: rest =>
    let merged_flags :=
      match rest with
      | second :: _ =>
        if review_threshold ≤ second.confidence ∧
            |best.confidence - second.confidence| ≤ ambiguity_delta
        then best.risk_flags ++ ["conflict_multiple_close_matches"]
        else best.risk_flags
      | [] => best.risk_flags
    let merged_flags := _dedupe_text_list merged_flags
    let has_conflict_flag :=
      merged_flags.any (fun flag => startsWithL flag.data "conflict_".data)
    let has_strong_signal := ¬ best.strong_signals.isEmpty
    let decision : String :=
      if auto_merge_threshold ≤ best.confidence ∧ has_strong_signal ∧
          best.has_posting ∧ ¬ has_conflict_flag then "auto_merged"
      else if review_threshold ≤ best.confidence ∨ has_conflict_flag then
        "needs_review"
      else if has_strong_signal then "rejected"
      else "none"
    { decision := decision
      primary_candidate_id :=
        if decision ≠ "none" then some best.candidate_id else none
      confidence := some (pyRound4 best.confidence)
      risk_flags := merged_flags
      metadata := some
        { auto_merge_threshold := auto_merge_threshold
          review_threshold := review_threshold
          ambiguity_delta := ambiguity_delta
          selected_candidate_id := best.candidate_id
          selected_components := best.components
          selected_strong_signals := best.strong_signals
          selected_risk_flags := best.risk_flags
          ranked_candidates := (ranked.take 3).map (fun row =>
            { candidate_id := row.candidate_id
              confidence := pyRound4 row.confidence
              strong_signals := row.strong_signals
              risk_flags := row.risk_flags }) } }

/-- Model of `evaluate_merge_policy` (threshold defaults `0.93`, `0.72`,
`0.03` are passed explicitly by callers of the model).  The ranking is the
stable sort of the scores by `(-confidence, candidate_id)`. -/
def evaluate_merge_policy (incoming : DedupeCandidateSnapshot)
    (existing : List DedupeCandidateSnapshot)
    (auto_merge_threshold review_threshold ambiguity_delta : ℚ) :
    Except Unit DedupePolicyDecision :=
  match existing.mapM (score_candidate_pair incoming) with
  | .error e => .error e
  | .ok scores =>
    if scores.isEmpty then .ok noMergeCandidatesDecision
    else
      .ok (decision_from_ranked auto_merge_threshold review_threshold
        ambiguity_delta (scores.insertionSort rankLe))

/-!
## Repository error taxonomy

`src/api/app/services/repository.py` raises typed errors; we model the three
used by the claims.
-/

inductive RepoErr where
  | notFound
  | conflict
  | forbidden
deriving DecidableEq, Repr

/-!
## Trust policy and the publish decision (`_resolve_publish_decision`,
repository.py:4239-4315)

`rules_json` is persisted as a JSON object whose only key surviving
`_validate_source_trust_policy_rules_json` is `min_confidence` (a float in
[0,1]); we model the normalized object as `Option ℚ`.
-/

structure SourceTrustPolicyRecord where
  source_key : String
  trust_level : String
  auto_publish : Bool
  requires_moderation : Bool
  /-- the normalized `rules_json`: `some q` iff the object is `{min_confidence: q}` -/
  rules_min_confidence : Option ℚ
  matched_fallback : Bool
deriving DecidableEq, Repr

/-- The audit payload dict built by `_resolve_publish_decision`
(keys modeled as fields; `rules_json` is the *local* dict of the function,
which the source initializes to `{}` and never fills). -/
structure PublishDecisionPayload where
  source_key : String
  trust_level : String
  auto_publish : Bool
  requires_moderation : Bool
  rules_json_min_confidence : Option ℚ
  matched_fallback : Bool
  dedupe_confidence : Option ℚ
  min_confidence : Option ℚ
  meets_confidence : Bool
  has_conflict_flag : Bool
  reason : String
deriving DecidableEq, Repr

/-- Model of `PostgresRepository._resolve_publish_decision`. Returns
`(candidate_state, posting_status, payload)`. Faithful to the source: the
local `rules_json` starts empty and `trust_policy.rules_min_confidence` is
never consulted. -/
def resolve_publish_decision (can_project_posting : Bool)
    (trust_policy : SourceTrustPolicyRecord)
    (dedupe_confidence : Option ℚ) (risk_flags : List String) :
    String × String × PublishDecisionPayload :=
  let rules_json_min : Option ℚ := none
  let min_confidence : Option ℚ :=
    if trust_policy.trust_level = "trusted" ∨ trust_policy.trust_level = "semi_trusted"
    then some 0.72 else none
  let meets_confidence : Bool :=
    match min_confidence, dedupe_confidence with
    | none, _ => true
    | some m, some d => m ≤ d
    | some _, none => false
  let has_conflict_flag : Bool :=
    risk_flags.any (fun flag => strContains (pyLower flag) "conflict")
  let (should_auto_publish, reason) : Bool × String :=
    if can_project_posting then
      if trust_policy.trust_level = "trusted" then
        let pub := trust_policy.auto_publish && !trust_policy.requires_moderation
          && meets_confidence
        if pub then (true, "trusted_auto_publish")
        else if !trust_policy.auto_publish then (false, "policy_auto_publish_disabled")
        else if trust_policy.requires_moderation then (false, "policy_requires_moderation")
        else if !meets_confidence then (false, "below_min_confidence")
        else (false, "insufficient_projection_data")
      else if trust_policy.trust_level = "semi_trusted" then
        let pub := trust_policy.auto_publish && meets_confidence
          && !has_conflict_flag && !trust_policy.requires_moderation
        if pub then (true, "semi_trusted_auto_publish")
        else if has_conflict_flag then (false, "semi_trusted_conflict_flag")
        else if trust_policy.requires_moderation then (false, "policy_requires_moderation")
        else if !meets_confidence then (false, "below_min_confidence")
        else if !trust_policy.auto_publish then (false, "policy_auto_publish_disabled")
        else (false, "insufficient_projection_data")
      else (false, "untrusted_requires_moderation")
    else (false, "insufficient_projection_data")
  let candidate_state := if can_project_posting then
      (if should_auto_publish then "published" else "needs_review") else "processed"
  let posting_status := if can_project_posting then
      (if should_auto_publish then "active" else "archived") else "archived"
  (candidate_state, posting_status,
    { source_key := trust_policy.source_key
      trust_level := trust_policy.trust_level
      auto_publish := trust_policy.auto_publish
      requires_moderation := trust_policy.requires_moderation
      rules_json_min_confidence := rules_json_min
      matched_fallback := trust_policy.matched_fallback
      dedupe_confidence := dedupe_confidence
      min_confidence := min_confidence
      meets_confidence := meets_confidence
      has_conflict_flag := has_conflict_flag
      reason := reason })

/-!
## Retry policy and `submit_job_result` (repository.py:790-868, 3769-3774)
-/

/-- Repository retry configuration. The constructor of `PostgresRepository`
clamps the raw settings (`max(1, job_max_attempts)`, `max(0, ...)` for the
retry seconds). -/
structure RepoConfig where
  job_max_attempts : Int
  job_retry_base_seconds : Int
  job_retry_max_seconds : Int
deriving DecidableEq, Repr

/-- Model of the clamping in `PostgresRepository.__init__`. -/
def mkRepoConfig (rawMaxAttempts rawRetryBase rawRetryMax : Int) : RepoConfig :=
  { job_max_attempts := max 1 rawMaxAttempts
    job_retry_base_seconds := max 0 rawRetryBase
    job_retry_max_seconds := max 0 rawRetryMax }

/-- Model of `PostgresRepository._compute_retry_delay_seconds`. -/
def compute_retry_delay_seconds (cfg : RepoConfig) (attempt : Int) : Int :=
  if cfg.job_retry_base_seconds ≤ 0 then 0
  else
    let multiplier := max 0 (attempt - 1)
    let delay := cfg.job_retry_base_seconds * 2 ^ multiplier.toNat
    min delay cfg.job_retry_max_seconds

/-- The columns of a `jobs` row read and written by `submit_job_result`. -/
structure JobRow where
  id : String
  kind : String
  target_type : String
  target_id : Option String
  status : String
  locked_by : Option String
  locked_at : Option Int
  lease_expires_at : Option Int
  attempt : Int
  next_run_at : Int
deriving DecidableEq, Repr

/-- Outcome of the `update jobs set ...` statement inside `submit_job_result`. -/
structure SubmitOutcome where
  resolved_status : String
  requested_status : String
  retry_delay_seconds : Option Int
  job : JobRow
deriving DecidableEq, Repr

/-- Model of the job-row part of `PostgresRepository.submit_job_result`:
the `FOR UPDATE` fetch, the three error gates, the failed-status retry
resolution, and the update that applies the resolved status and clears the
lock triplet (`next_run_at = coalesce($5, next_run_at)`). `job?` is the row
addressed by `job_id` (or `none` when absent); `now` is `now()`. -/
def submit_job_result (cfg : RepoConfig) (job? : Option JobRow)
    (module_db_id : String) (status : String) (now : Int) :
    Except RepoErr SubmitOutcome :=
  match job? with
  | none => .error .notFound
  | some claimed =>
    if claimed.status ≠ "claimed" then .error .conflict
    else if claimed.locked_by ≠ some module_db_id then .error .forbidden
    else
      let attempt := claimed.attempt
      let requested_status := status
      let (resolved_status, next_run_at?, retry_delay_seconds) :
          String × Option Int × Option Int :=
        if requested_status = "failed" then
          if attempt ≥ cfg.job_max_attempts then ("failed", none, none)
          else
            let d := compute_retry_delay_seconds cfg attempt
            ("queued", some (now + d), some d)
        else (status, none, none)
      .ok
        { resolved_status := resolved_status
          requested_status := requested_status
          retry_delay_seconds := retry_delay_seconds
          job :=
            { claimed with
              status := resolved_status
              locked_by := none
              locked_at := none
              lease_expires_at := none
              next_run_at := next_run_at?.getD claimed.next_run_at } }

/-!
## The `postings` upsert of `_materialize_extract_projection`
(repository.py:1422-1513) and the status-update statements
(repository.py:3182-3195 moderation path, 3439-3452 machine path)
-/

/-- A row of the `postings` table (columns touched by the claims). -/
structure PostingRow where
  candidate_id : Option String
  title : String
  canonical_url : String
  normalized_url : String
  canonical_hash : String
  sector : Option String
  degree_level : Option String
  opportunity_kind : Option String
  organization_name : String
  country : Option String
  region : Option String
  city : Option String
  remote : Bool
  tags : List String
  areas : List String
  description_text : Option String
  application_url : Option String
  deadline : Option Int
  source_refs : String
  status : String
  published_at : Option Int
deriving DecidableEq, Repr

/-- The values `$1..$19` bound by the projection upsert (everything except
`status`, which is passed separately as `$20`). -/
structure PostingProjectionValues where
  candidate_id : Option String
  title : String
  canonical_url : String
  normalized_url : String
  canonical_hash : String
  sector : Option String
  degree_level : Option String
  opportunity_kind : Option String
  organization_name : String
  country : Option String
  region : Option String
  city : Option String
  remote : Bool
  tags : List String
  areas : List String
  description_text : Option String
  application_url : Option String
  deadline : Option Int
  source_refs : String
deriving DecidableEq, Repr

/-- Model of `INSERT INTO postings ... ON CONFLICT (canonical_hash) DO UPDATE
SET ...` in `_materialize_extract_projection`. `prev` is the existing row
with the same `canonical_hash` (`none` when the insert does not conflict).
On insert, `published_at` is `CASE WHEN $20 = 'active' THEN now() ELSE NULL
END`; the `DO UPDATE SET` list assigns every projected column and `status`
but does not mention `published_at`. -/
def posting_projection_upsert (prev : Option PostingRow)
    (v : PostingProjectionValues) (posting_status : String) (now : Int) :
    PostingRow :=
  match prev with
  | none =>
      { candidate_id := v.candidate_id
        title := v.title
        canonical_url := v.canonical_url
        normalized_url := v.normalized_url
        canonical_hash := v.canonical_hash
        sector := v.sector
        degree_level := v.degree_level
        opportunity_kind := v.opportunity_kind
        organization_name := v.organization_name
        country := v.country
        region := v.region
        city := v.city
        remote := v.remote
        tags := v.tags
        areas := v.areas
        description_text := v.description_text
        application_url := v.application_url
        deadline := v.deadline
        source_refs := v.source_refs
        status := posting_status
        published_at := if posting_status = "active" then some now else none }
  | some p =>
      { p with
        candidate_id := v.candidate_id
        title := v.title
        canonical_url := v.canonical_url
        normalized_url := v.normalized_url
        sector := v.sector
        degree_level := v.degree_level
        opportunity_kind := v.opportunity_kind
        organization_name := v.organization_name
        country := v.country
        region := v.region
        city := v.city
        remote := v.remote
        tags := v.tags
        areas := v.areas
        description_text := v.description_text
        application_url := v.application_url
        deadline := v.deadline
        source_refs := v.source_refs
        status := posting_status }

/-- The `published_at` SET clause shared by `update_posting_status`
(moderation) and `_apply_machine_posting_status_transition` (machine):
`CASE WHEN to_status = 'active' THEN COALESCE(published_at, now()) ELSE
published_at END`. -/
def posting_status_update_published_at (to_status : String)
    (published_at : Option Int) (now : Int) : Option Int :=
  if to_status = "active" then some (published_at.getD now) else published_at

/-!
## Merge-decision routing and the auto-merge branch of
`_materialize_extract_projection` (repository.py:1309-1417, 4317-4350)
-/

/-- Model of `PostgresRepository._resolve_merge_decision_routing`. Returns
`(candidate_state, posting_status, reason?, moderation_route?)`. Faithful to
the source: the `trust_policy` argument is accepted but not consulted, and
`moderation_route` is always `None`. -/
def resolve_merge_decision_routing (_trust_policy : SourceTrustPolicyRecord)
    (merge_decision : String) (candidate_state posting_status : String) :
    String × String × Option String × Option String :=
  let reason : Option String :=
    if merge_decision = "needs_review" then some "dedupe_review_required"
    else if merge_decision = "auto_merged" then some "dedupe_auto_merged"
    else if merge_decision = "rejected" then some "dedupe_rejected"
    else none
  let action : Option String :=
    if merge_decision = "needs_review" then some "needs_review"
    else if merge_decision = "auto_merged" then some "archive"
    else if merge_decision = "rejected" then some "reject"
    else none
  let (candidate_state, posting_status) :=
    if action = some "needs_review" then ("needs_review", "archived")
    else if action = some "reject" then ("rejected", "archived")
    else if action = some "archive" then ("archived", "archived")
    else (candidate_state, posting_status)
  (candidate_state, posting_status, reason, none)

/-- Result of the merge-handling segment of `_materialize_extract_projection`
(from the `skip_posting_projection = False` line through the
`if not can_project_posting or skip_posting_projection: return` gate). -/
structure ProjectionMergeOutcome where
  /-- value of `merge_policy_payload["merge_decision"]` after the branch -/
  payload_merge_decision : String
  /-- value of `merge_policy_payload["merge_risk_flags"]` after the branch -/
  payload_merge_risk_flags : List String
  /-- decision written by `_record_candidate_merge_decision`, if called -/
  recorded_decision : Option String
  skip_posting_projection : Bool
  candidate_state : String
  posting_status : String
  merge_policy_reason : Option String
  moderation_route : Option String
  /-- whether control reaches the `INSERT INTO postings ...` upsert -/
  posting_upsert_executed : Bool
deriving DecidableEq, Repr

/-- Model of the merge branch of `_materialize_extract_projection`.

* `merge_primary?` / `merge_decision` / `merge_flags` come from the evaluated
  dedupe merge policy;
* `auto_merge_raises` tells whether the `_apply_candidate_merge` call inside
  the `try` raises `RepositoryConflictError`/`RepositoryNotFoundError`
  (e.g. because both candidates already have distinct postings);
* `candidate_state`/`posting_status` are the values flowing in from the
  publish decision.

In the source, `skip_posting_projection = True` is executed only when
`_apply_candidate_merge` returns normally; the `except` branch leaves it
`False`. -/
def projection_merge_branch (trust_policy : SourceTrustPolicyRecord)
    (can_project_posting : Bool) (merge_primary? : Option String)
    (merge_decision : String) (merge_flags : List String)
    (auto_merge_raises : Bool) (candidate_state posting_status : String) :
    ProjectionMergeOutcome :=
  let (payload_decision, payload_flags, recorded, skip, candidate_state, posting_status) :
      String × List String × Option String × Bool × String × String :=
    if merge_primary?.isSome ∧ merge_decision = "auto_merged" then
      if auto_merge_raises then
        ("needs_review",
         merge_risk_flags [merge_flags, ["conflict_auto_merge_blocked"]],
         some "needs_review", false, "needs_review", "archived")
      else
        (merge_decision, merge_flags, some "auto_merged", true,
         candidate_state, posting_status)
    else if merge_primary?.isSome ∧
        (merge_decision = "needs_review" ∨ merge_decision = "rejected") then
      (merge_decision, merge_flags, some merge_decision, false,
       candidate_state, posting_status)
    else
      (merge_decision, merge_flags, none, false, candidate_state, posting_status)
  let (candidate_state, posting_status, reason, route) :=
    resolve_merge_decision_routing trust_policy payload_decision
      candidate_state posting_status
  { payload_merge_decision := payload_decision
    payload_merge_risk_flags := payload_flags
    recorded_decision := recorded
    skip_posting_projection := skip
    candidate_state := candidate_state
    posting_status := posting_status
    merge_policy_reason := reason
    moderation_route := route
    posting_upsert_executed := can_project_posting && !skip }

/-!
## Discovery ingestor: `create_discovery_and_enqueue_extract`
(repository.py:280-462)
-/

/-- A row of the `discoveries` table (uniqueness-relevant columns plus the
payload columns inserted by the ingestor). -/
structure DiscoveryRow where
  id : Nat
  origin_module_id : String
  external_id : Option String
  discovered_at : Int
  url : Option String
  normalized_url : Option String
  canonical_hash : Option String
  title_hint : Option String
  text_hint : Option String
  metadata : String
deriving DecidableEq, Repr

/-- A row inserted into `jobs` by the ingestor. -/
structure SeededJob where
  kind : String
  target_type : String
  target_id : Nat
  inputs : List (String × Option String)
deriving DecidableEq, Repr

/-- A provenance event appended by the ingestor. -/
structure IngestEvent where
  entity_type : String
  entity_id : Nat
  event_type : String
  actor_type : String
  actor_id : String
deriving DecidableEq, Repr

/-- The slice of database state the ingestor touches. `next_id` models the
id generator for fresh discovery rows. -/
structure IngestState where
  discoveries : List DiscoveryRow
  next_id : Nat
  jobs : List SeededJob
  events : List IngestEvent
  /-- the enabled URL normalization overrides JSON snapshot, as fetched by
  `_fetch_enabled_url_normalization_overrides_json` -/
  overrides_json : Option String
deriving DecidableEq, Repr

/-- The arguments of `create_discovery_and_enqueue_extract`. -/
structure IngestArgs where
  origin_module_db_id : String
  external_id : Option String
  discovered_at : Int
  url : Option String
  normalized_url : Option String
  canonical_hash : Option String
  title_hint : Option String
  text_hint : Option String
  metadata : String
  actor_module_db_id : String
  enqueue_redirect_resolution : Bool
deriving DecidableEq, Repr

/-- Conflict predicate of `on conflict (origin_module_id, external_id) where
external_id is not null`: an existing row collides with the incoming insert
iff both have the same origin and the same non-null `external_id`. -/
def discoveryKeyExternal (origin : String) (e : String) (d : DiscoveryRow) : Bool :=
  d.origin_module_id = origin ∧ d.external_id = some e

/-- Conflict predicate of `on conflict (origin_module_id, normalized_url)
where external_id is null and normalized_url is not null`. -/
def discoveryKeyNormalized (origin : String) (n : String) (d : DiscoveryRow) : Bool :=
  d.origin_module_id = origin ∧ d.external_id = none ∧ d.normalized_url = some n

/-- The row inserted by the ingestor (external-id branch passes `external_id`
through; the other branches insert `external_id = NULL`, and the no-key
branch inserts NULL url-derived columns). -/
def ingestInsertRow (st : IngestState) (a : IngestArgs)
    (external_id : Option String) (keepUrlColumns : Bool) : DiscoveryRow :=
  { id := st.next_id
    origin_module_id := a.origin_module_db_id
    external_id := external_id
    discovered_at := a.discovered_at
    url := a.url
    normalized_url := if keepUrlColumns then a.normalized_url else none
    canonical_hash := if keepUrlColumns then a.canonical_hash else none
    title_hint := a.title_hint
    text_hint := a.text_hint
    metadata := a.metadata }

/-- The job seeding + provenance block guarded by `if inserted:` in the
source (extract job always; `resolve_url_redirects` when requested and
`url` is truthy; one `ingested` event). -/
def ingestSeed (st : IngestState) (a : IngestArgs) (discovery_id : Nat) :
    IngestState :=
  let extractJob : SeededJob :=
    { kind := "extract", target_type := "discovery", target_id := discovery_id
      inputs := [("discovery_id", some (toString discovery_id))] }
  let jobs := st.jobs ++ [extractJob]
  let jobs :=
    if a.enqueue_redirect_resolution && pyTruthy a.url then
      jobs ++ [{ kind := "resolve_url_redirects", target_type := "discovery"
                 target_id := discovery_id
                 inputs := [("discovery_id", some (toString discovery_id)),
                            ("url", a.url),
                            ("normalized_url", a.normalized_url),
                            ("canonical_hash", a.canonical_hash),
                            ("normalization_overrides_json", st.overrides_json)] }]
    else jobs
  let events := st.events ++
    [{ entity_type := "discovery", entity_id := discovery_id
       event_type := "ingested", actor_type := "machine"
       actor_id := a.actor_module_db_id }]
  { st with jobs := jobs, events := events }

/-- Model of `PostgresRepository.create_discovery_and_enqueue_extract`.
Returns the updated state and the discovery id. Truthiness of
`external_id` / `normalized_url` follows Python (`None` and `""` falsy).
Raises `ConflictError` when the `ON CONFLICT DO NOTHING` insert is elided
but the re-select finds no row (impossible in a sequential execution; kept
for faithfulness). -/
def create_discovery_and_enqueue_extract (st : IngestState) (a : IngestArgs) :
    Except RepoErr (IngestState × Nat) :=
  if pyTruthy a.external_id then
    let e := a.external_id.getD ""
    match st.discoveries.find? (discoveryKeyExternal a.origin_module_db_id e) with
    | some existing => .ok (st, existing.id)
    | none =>
        let row := ingestInsertRow st a a.external_id true
        let st₁ := { st with discoveries := st.discoveries ++ [row]
                             next_id := st.next_id + 1 }
        .ok (ingestSeed st₁ a row.id, row.id)
  else if pyTruthy a.normalized_url then
    let n := a.normalized_url.getD ""
    match st.discoveries.find? (discoveryKeyNormalized a.origin_module_db_id n) with
    | some existing => .ok (st, existing.id)
    | none =>
        let row := ingestInsertRow st a none true
        let st₁ := { st with discoveries := st.discoveries ++ [row]
                             next_id := st.next_id + 1 }
        .ok (ingestSeed st₁ a row.id, row.id)
  else
    let row := ingestInsertRow st a none false
    let st₁ := { st with discoveries := st.discoveries ++ [row]
                         next_id := st.next_id + 1 }
    .ok (ingestSeed st₁ a row.id, row.id)

/-!
## Candidate merge: `merge_candidates` / `_apply_candidate_merge`
(repository.py:1998-2197)
-/

/-- A `posting_candidates` row (id and state). -/
structure CandidateRow where
  id : String
  state : String
deriving DecidableEq, Repr

/-- A `candidate_merge_decisions` row (unique on `(primary, secondary)`). -/
structure MergeDecisionRow where
  primary_candidate_id : String
  secondary_candidate_id : String
  decision : String
  confidence : Option ℚ
  decided_by : String
  rationale : Option String
deriving DecidableEq, Repr

/-- A provenance event appended by the merge. -/
structure MergeEvent where
  entity_type : String
  entity_id : String
  event_type : String
  actor_type : String
  actor_id : String
deriving DecidableEq, Repr

/-- The database slice touched by `_apply_candidate_merge`: candidates,
postings (`(posting id, candidate_id)`), the two link tables, merge
decisions and events. -/
structure MergeDbState where
  candidates : List CandidateRow
  postings : List (String × Option String)
  candidate_discoveries : List (String × String)
  candidate_evidence : List (String × String)
  merge_decisions : List MergeDecisionRow
  events : List MergeEvent
deriving DecidableEq, Repr

/-- The `insert ... on conflict do nothing` for a pair link table: append the
pair unless it is already present. -/
def linkInsertIgnore (table : List (String × String)) (pair : String × String) :
    List (String × String) :=
  if pair ∈ table then table else table ++ [pair]

/-- The `insert into <links> (candidate_id, x) select primary, x from <links>
where candidate_id = secondary on conflict do nothing`. -/
def copyLinks (table : List (String × String)) (primary secondary : String) :
    List (String × String) :=
  ((table.filter (fun p => p.1 = secondary)).map Prod.snd).foldl
    (fun acc x => linkInsertIgnore acc (primary, x)) table

/-- Model of `_record_candidate_merge_decision` (repository.py:2199-2267):
upsert keyed on `(primary, secondary)` plus a `merge_decision_recorded`
event on the secondary. `confidence` is rounded in the source; rounding an
exact rational to 4 decimals leaves the values used here unchanged, so we
store it as-is. -/
def record_candidate_merge_decision (st : MergeDbState)
    (primary secondary decision : String) (confidence : Option ℚ)
    (decided_by : String) (rationale : Option String)
    (actor_type actor_id : String) : MergeDbState :=
  let row : MergeDecisionRow :=
    { primary_candidate_id := primary, secondary_candidate_id := secondary
      decision := decision, confidence := confidence
      decided_by := decided_by, rationale := rationale }
  let decisions :=
    if st.merge_decisions.any
        (fun r => r.primary_candidate_id = primary ∧
                  r.secondary_candidate_id = secondary) then
      st.merge_decisions.map
        (fun r =>
          if r.primary_candidate_id = primary ∧
             r.secondary_candidate_id = secondary then row else r)
    else st.merge_decisions ++ [row]
  { st with
    merge_decisions := decisions
    events := st.events ++
      [{ entity_type := "posting_candidate", entity_id := secondary
         event_type := "merge_decision_recorded", actor_type := actor_type
         actor_id := actor_id }] }

/-- Model of `PostgresRepository._apply_candidate_merge`. Returns the state
after the merge together with the id list of the `SELECT ... ORDER BY id FOR
UPDATE` lock acquisition (ids in the order the rows are locked). -/
def apply_candidate_merge (st : MergeDbState)
    (primary_candidate_id secondary_candidate_id : String)
    (actor_type actor_id : String) (reason : Option String)
    (decision decided_by : String) (confidence : Option ℚ) :
    Except RepoErr (MergeDbState × List String) :=
  if primary_candidate_id = secondary_candidate_id then .error .conflict
  else
    let locked_ids :=
      ((st.candidates.filter
          (fun c => c.id = primary_candidate_id ∨ c.id = secondary_candidate_id)).map
        CandidateRow.id).insertionSort (· ≤ ·)
    if locked_ids.length ≠ 2 then .error .notFound
    else
      let primary_posting_id :=
        (st.postings.find? (fun p => p.2 = some primary_candidate_id)).map Prod.fst
      let secondary_posting_id :=
        (st.postings.find? (fun p => p.2 = some secondary_candidate_id)).map Prod.fst
      if primary_posting_id.isSome ∧ secondary_posting_id.isSome ∧
          primary_posting_id ≠ secondary_posting_id then .error .conflict
      else
        let st := { st with
          candidate_discoveries :=
            copyLinks st.candidate_discoveries primary_candidate_id
              secondary_candidate_id
          candidate_evidence :=
            copyLinks st.candidate_evidence primary_candidate_id
              secondary_candidate_id }
        let (st, moved_posting_id) :
            MergeDbState × Option String :=
          if primary_posting_id.isNone ∧ secondary_posting_id.isSome then
            let reparented := st.postings.map
              (fun p => if some p.1 = secondary_posting_id
                        then (p.1, some primary_candidate_id) else p)
            ({ st with postings := reparented }, secondary_posting_id)
          else (st, none)
        let archived := st.candidates.map
          (fun c => if c.id = secondary_candidate_id
                    then { c with state := "archived" } else c)
        let st := { st with candidates := archived }
        let st := record_candidate_merge_decision st primary_candidate_id
          secondary_candidate_id decision confidence decided_by reason
          actor_type actor_id
        let st := { st with events := st.events ++
          [{ entity_type := "posting_candidate", entity_id := primary_candidate_id
             event_type := "merge_applied", actor_type := actor_type
             actor_id := actor_id },
           { entity_type := "posting_candidate", entity_id := secondary_candidate_id
             event_type := "merged_away", actor_type := actor_type
             actor_id := actor_id }] }
        let st :=
          match moved_posting_id with
          | some posting_id =>
              { st with events := st.events ++
                [{ entity_type := "posting", entity_id := posting_id
                   event_type := "candidate_reassigned", actor_type := actor_type
                   actor_id := actor_id }] }
          | none => st
        .ok (st, locked_ids)

/-- Model of `PostgresRepository.merge_candidates` (the moderation wrapper):
a `manual_merged` decision by `human_moderator` with no confidence. -/
def merge_candidates (st : MergeDbState)
    (primary_candidate_id secondary_candidate_id actor_user_id : String)
    (reason : Option String) : Except RepoErr (MergeDbState × List String) :=
  apply_candidate_merge st primary_candidate_id secondary_candidate_id
    "human" actor_user_id reason "manual_merged" "human_moderator" none

/-!
## Concrete data for witnesses and counterexamples
-/

/-- An existing `postings` row projected with status `archived` (so
`published_at` is NULL), as produced by the insert branch of the upsert. -/
def c1PrevRow : PostingRow :=
  { candidate_id := some "cand-old"
    title := "Biostatistics"
    canonical_url := "https://example.edu/jobs/biostats"
    normalized_url := "https://example.edu/jobs/biostats"
    canonical_hash := "hash-biostats"
    sector := none, degree_level := none, opportunity_kind := none
    organization_name := "Example University"
    country := none, region := none, city := none
    remote := false, tags := [], areas := []
    description_text := none, application_url := none, deadline := none
    source_refs := "[]"
    status := "archived"
    published_at := none }

/-- The projected values of a later extract of the same `canonical_hash`. -/
def c1NewValues : PostingProjectionValues :=
  { candidate_id := some "cand-new"
    title := "Biostatistics"
    canonical_url := "https://example.edu/jobs/biostats"
    normalized_url := "https://example.edu/jobs/biostats"
    canonical_hash := "hash-biostats"
    sector := none, degree_level := none, opportunity_kind := none
    organization_name := "Example University"
    country := none, region := none, city := none
    remote := false, tags := [], areas := []
    description_text := none, application_url := none, deadline := none
    source_refs := "[]" }

/-- A matched trusted policy whose `rules_json` carries
`{"min_confidence": 0.0}` (accepted by the strict validator). -/
def c2Policy : SourceTrustPolicyRecord :=
  { source_key := "tests:low-bar"
    trust_level := "trusted"
    auto_publish := true
    requires_moderation := false
    rules_min_confidence := some 0
    matched_fallback := false }

/-- The trust policy in force for the C3 scenario (its content is irrelevant
to the branch, which never reads it). -/
def c3Policy : SourceTrustPolicyRecord :=
  { source_key := "default:trusted"
    trust_level := "trusted"
    auto_publish := true
    requires_moderation := false
    rules_min_confidence := none
    matched_fallback := true }

/-- The incoming snapshot of the C10 witness. -/
def c10Incoming : DedupeCandidateSnapshot :=
  { candidate_id := "cand-new", canonical_hash := some "hash-0"
    normalized_url := none, canonical_url := none, application_url := none
    title := some "Biostatistics Fellowship"
    organization_name := some "Example University", description_text := none
    tags := [], areas := [], country := none, region := none, city := none
    named_entities := { organizations := [], locations := [], people := [] }
    contact_domains := [], has_posting := false }

/-- First existing snapshot of the C10 witness. -/
def c10A : DedupeCandidateSnapshot :=
  { c10Incoming with candidate_id := "cand-a", has_posting := true }

/-- Second existing snapshot of the C10 witness. -/
def c10B : DedupeCandidateSnapshot :=
  { c10Incoming with
    candidate_id := "cand-b"
    canonical_hash := some "hash-other" }

/-- The arguments used by the C6 witness: a keyed re-ingest with redirect
resolution requested. -/
def c6Args : IngestArgs :=
  { origin_module_db_id := "mod-db-1", external_id := some "ext-123"
    discovered_at := 0, url := some "https://example.edu/jobs/biostats?utm_source=feed"
    normalized_url := some "https://example.edu/jobs/biostats"
    canonical_hash := some "hash-biostats", title_hint := none, text_hint := none
    metadata := "{}", actor_module_db_id := "mod-db-1"
    enqueue_redirect_resolution := true }

/-- The initial state used by the C6 witness. -/
def c6State : IngestState :=
  { discoveries := [], next_id := 7, jobs := [], events := [], overrides_json := none }

/-- The database state used by the C7 witness: the primary has a posting,
the secondary has links but no posting. -/
def c7State : MergeDbState :=
  { candidates := [{ id := "cand-a", state := "published" },
                   { id := "cand-b", state := "needs_review" }]
    postings := [("post-1", some "cand-a")]
    candidate_discoveries := [("cand-a", "disc-1"), ("cand-b", "disc-2")]
    candidate_evidence := [("cand-b", "ev-1")]
    merge_decisions := []
    events := [] }

/-- A job row that is not in `claimed` state: its `locked_by` is NULL, hence
different from every submitting module. -/
def c8QueuedJob : JobRow :=
  { id := "job-9", kind := "extract", target_type := "discovery"
    target_id := some "disc-9", status := "queued", locked_by := none
    locked_at := none, lease_expires_at := none, attempt := 1
    next_run_at := 0 }

/-- The job used by the C4 witness. -/
def c4Job : JobRow :=
  { id := "job-1", kind := "extract", target_type := "discovery"
    target_id := some "disc-1", status := "claimed", locked_by := some "mod-1"
    locked_at := some 50, lease_expires_at := some 650, attempt := 2
    next_run_at := 0 }

/-!
## Claim C1
-/

/-- C1: the claim states that `status = 'active'` implies `published_at`
non-NULL after every operation, and in particular that the extract
projection upsert leaves `published_at = now()` whenever the resulting
status is `active` and the previous value was NULL. The code's
`ON CONFLICT DO UPDATE SET` list omits `published_at`, so updating an
existing NULL-`published_at` row to status `active` leaves `published_at`
NULL, violating the invariant; the moderation/machine status paths (third
conjunct) do set `published_at = COALESCE(published_at, now())` as claimed. -/
theorem C1_upsert_conflict_leaves_published_at_null :
    (posting_projection_upsert (some c1PrevRow) c1NewValues "active" 100).status
      = "active" ∧
    (posting_projection_upsert (some c1PrevRow) c1NewValues "active" 100).published_at
      = none ∧
    posting_status_update_published_at "active" none 100 = some 100 ∧
    posting_status_update_published_at "active" (some 7) 100 = some 7 := by
  refine ⟨rfl, rfl, rfl, rfl⟩

/-!
## Claim C2
-/

/-- C2: the claim states that a policy `rules_json.min_confidence ∈ [0,1]`
overrides the derived `min_confidence`. In the source,
`_resolve_publish_decision` initializes a local `rules_json = {}` and never
reads `trust_policy.rules_json`, so with a trusted policy carrying
`min_confidence = 0.0` and `dedupe_confidence = 0.5` the decision still uses
`0.72`, reports `meets_confidence = False` / `below_min_confidence`, and
routes to `(needs_review, archived)` — where the claim requires an
effective `min_confidence` of `0.0`, `meets_confidence = True`, and (with
`auto_publish` and no moderation) a publish. -/
theorem C2_rules_min_confidence_is_ignored :
    c2Policy.rules_min_confidence = some 0 ∧
    (resolve_publish_decision true c2Policy (some 0.5) []).2.2.min_confidence
      = some 0.72 ∧
    (resolve_publish_decision true c2Policy (some 0.5) []).2.2.meets_confidence
      = false ∧
    (resolve_publish_decision true c2Policy (some 0.5) []).2.2.reason
      = "below_min_confidence" ∧
    (resolve_publish_decision true c2Policy (some 0.5) []).1 = "needs_review" ∧
    (resolve_publish_decision true c2Policy (some 0.5) []).2.1 = "archived" := by
  have hm : (decide ((0.72 : ℚ) ≤ 0.5)) = false := by norm_num
  refine ⟨rfl, ?_, ?_, ?_, ?_, ?_⟩ <;>
    · unfold resolve_publish_decision
      simp [c2Policy, hm]

/-!
## Claim C3
-/

/-- C3: when the auto-merge call raises a conflict, the code does degrade the
candidate to `needs_review` and records a `needs_review` merge decision
flagged `conflict_auto_merge_blocked` — but `skip_posting_projection` is set
only on the success path of the `try`, so after the `except` branch the
`INSERT INTO postings ... ON CONFLICT DO UPDATE` still executes for a
projectable job, contradicting the claim that no posting row is inserted or
updated (posting projection stays off). -/
theorem C3_blocked_auto_merge_still_projects_posting :
    (projection_merge_branch c3Policy true (some "cand-primary") "auto_merged"
        [] true "published" "active").candidate_state = "needs_review" ∧
    (projection_merge_branch c3Policy true (some "cand-primary") "auto_merged"
        [] true "published" "active").posting_status = "archived" ∧
    (projection_merge_branch c3Policy true (some "cand-primary") "auto_merged"
        [] true "published" "active").payload_merge_risk_flags
      = ["conflict_auto_merge_blocked"] ∧
    (projection_merge_branch c3Policy true (some "cand-primary") "auto_merged"
        [] true "published" "active").recorded_decision = some "needs_review" ∧
    (projection_merge_branch c3Policy true (some "cand-primary") "auto_merged"
        [] true "published" "active").skip_posting_projection = false ∧
    (projection_merge_branch c3Policy true (some "cand-primary") "auto_merged"
        [] true "published" "active").posting_upsert_executed = true := by
  refine ⟨by decide, by decide, by decide, by decide, by decide, by decide⟩

/-!
## Claim C4
-/

/-- C4: on a claimed job addressed by its submitter with requested status
`failed`, the result resolves to terminal `failed` when
`attempt ≥ job_max_attempts` and otherwise to `queued` with
`next_run_at = now + min(job_retry_max_seconds,
job_retry_base_seconds · 2^(attempt−1))`; in both cases the lock triplet is
cleared. Stated over the clamped configuration built by the repository
constructor. -/
theorem C4_failed_submit_resolves_by_retry_policy
    (rawMax rawBase rawRetryMax : Int) (job : JobRow) (m : String) (now : Int)
    (hstatus : job.status = "claimed") (hlock : job.locked_by = some m)
    (hatt : 1 ≤ job.attempt) :
    ∃ out, submit_job_result (mkRepoConfig rawMax rawBase rawRetryMax)
        (some job) m "failed" now = .ok out ∧
      out.job.locked_by = none ∧ out.job.locked_at = none ∧
      out.job.lease_expires_at = none ∧
      (job.attempt ≥ (mkRepoConfig rawMax rawBase rawRetryMax).job_max_attempts →
        out.resolved_status = "failed" ∧ out.job.status = "failed") ∧
      (¬ job.attempt ≥ (mkRepoConfig rawMax rawBase rawRetryMax).job_max_attempts →
        out.resolved_status = "queued" ∧ out.job.status = "queued" ∧
        out.job.next_run_at = now +
          min (mkRepoConfig rawMax rawBase rawRetryMax).job_retry_max_seconds
            ((mkRepoConfig rawMax rawBase rawRetryMax).job_retry_base_seconds
              * 2 ^ (job.attempt - 1).toNat)) := by
  set cfg := mkRepoConfig rawMax rawBase rawRetryMax with hcfg
  have hb : 0 ≤ cfg.job_retry_base_seconds := le_max_left 0 rawBase
  have hmx : 0 ≤ cfg.job_retry_max_seconds := le_max_left 0 rawRetryMax
  have hdelay : compute_retry_delay_seconds cfg job.attempt
      = min cfg.job_retry_max_seconds
          (cfg.job_retry_base_seconds * 2 ^ (job.attempt - 1).toNat) := by
    unfold compute_retry_delay_seconds
    by_cases h0 : cfg.job_retry_base_seconds ≤ 0
    · have hz : cfg.job_retry_base_seconds = 0 := le_antisymm h0 hb
      simp [h0, hz, min_eq_right hmx]
    · have hmax : max 0 (job.attempt - 1) = job.attempt - 1 :=
        max_eq_right (by omega)
      simp only [if_neg h0, hmax]
      exact min_comm _ _
  by_cases hge : job.attempt ≥ cfg.job_max_attempts
  · have heq : submit_job_result cfg (some job) m "failed" now =
        .ok { resolved_status := "failed"
              requested_status := "failed"
              retry_delay_seconds := none
              job := { job with
                        status := "failed"
                        locked_by := none
                        locked_at := none
                        lease_expires_at := none
                        next_run_at := job.next_run_at } } := by
      simp [submit_job_result, hstatus, hlock, hge]
    exact ⟨_, heq, rfl, rfl, rfl, fun _ => ⟨rfl, rfl⟩, fun h => absurd hge h⟩
  · have heq : submit_job_result cfg (some job) m "failed" now =
        .ok { resolved_status := "queued"
              requested_status := "failed"
              retry_delay_seconds := some (compute_retry_delay_seconds cfg job.attempt)
              job := { job with
                        status := "queued"
                        locked_by := none
                        locked_at := none
                        lease_expires_at := none
                        next_run_at := now + compute_retry_delay_seconds cfg job.attempt } } := by
      simp [submit_job_result, hstatus, hlock, hge]
    refine ⟨_, heq, rfl, rfl, rfl, fun h => absurd h hge, fun _ => ⟨rfl, rfl, ?_⟩⟩
    show now + compute_retry_delay_seconds cfg job.attempt = _
    rw [hdelay]

/-!
## Claim C5
-/

/-- C5: for a projectable extract result whose resolved policy has
`trust_level = 'untrusted'`, the publish decision routes to
`(needs_review, archived)` — never `(published, active)` — regardless of
`auto_publish`, `requires_moderation`, `dedupe_confidence` and risk flags. -/
theorem C5_untrusted_never_auto_publishes
    (tp : SourceTrustPolicyRecord) (dc : Option ℚ) (rf : List String)
    (htl : tp.trust_level = "untrusted") :
    (resolve_publish_decision true tp dc rf).1 = "needs_review" ∧
    (resolve_publish_decision true tp dc rf).2.1 = "archived" := by
  unfold resolve_publish_decision
  simp [htl]

/-- C5 witness: an untrusted policy with every publish-friendly input
(auto-publish on, no moderation, perfect confidence, no risk flags). -/
theorem C5_untrusted_never_auto_publishes_witness :
    (resolve_publish_decision true
        { source_key := "module:untrusted-connector", trust_level := "untrusted"
          auto_publish := true, requires_moderation := false
          rules_min_confidence := none, matched_fallback := false }
        (some 1) []).1 = "needs_review" ∧
    (resolve_publish_decision true
        { source_key := "module:untrusted-connector", trust_level := "untrusted"
          auto_publish := true, requires_moderation := false
          rules_min_confidence := none, matched_fallback := false }
        (some 1) []).2.1 = "archived" :=
  C5_untrusted_never_auto_publishes _ (some 1) [] rfl

/-!
## Claim C10
-/

/-- The `mapM` over `Except` is the plain map when every element succeeds. -/
theorem mapM_ok_of_forall_ok {α β : Type} (f : α → Except Unit β) (g : α → β) :
    ∀ l : List α, (∀ x ∈ l, f x = .ok (g x)) → l.mapM f = .ok (l.map g) := by
  intro l
  induction l with
  | nil => intro _; rfl
  | cons a t ih =>
      intro h
      rw [List.mapM_cons, h a (List.mem_cons_self a t),
        ih (fun x hx => h x (List.mem_cons_of_mem a hx))]
      rfl

/-- The `mapM` over `Except` fails when some element fails. -/
theorem mapM_error_of_mem_error {α β : Type} (f : α → Except Unit β) :
    ∀ l : List α, ∀ x ∈ l, f x = .error () → l.mapM f = .error () := by
  intro l
  induction l with
  | nil => intro x hx; exact absurd hx (List.not_mem_nil x)
  | cons a t ih =>
      intro x hx hfx
      rw [List.mapM_cons]
      rcases List.mem_cons.mp hx with rfl | hx
      · rw [hfx]; rfl
      · cases hfa : f a with
        | error e => cases e; rfl
        | ok b => rw [ih x hx hfx]; rfl

/-- Two sorted permutations of each other are equal when the order is
antisymmetric on the elements involved. -/
theorem eq_of_perm_of_sorted_of_antisymm_on {α : Type} {r : α → α → Prop} :
    ∀ {l₁ l₂ : List α}, l₁.Perm l₂ → l₁.Sorted r → l₂.Sorted r →
      (∀ a ∈ l₁, ∀ b ∈ l₁, r a b → r b a → a = b) → l₁ = l₂ := by
  intro l₁
  induction l₁ with
  | nil =>
      intro l₂ hp _ _ _
      exact (hp.symm.eq_nil).symm
  | cons a t ih =>
      intro l₂ hp hs₁ hs₂ hanti
      cases l₂ with
      | nil => exact absurd hp.eq_nil (by simp)
      | cons b t₂ =>
          by_cases hab : a = b
          · subst hab
            have ht : t.Perm t₂ := hp.cons_inv
            have := ih ht hs₁.of_cons hs₂.of_cons
              (fun x hx y hy => hanti x (List.mem_cons_of_mem a hx)
                y (List.mem_cons_of_mem a hy))
            rw [this]
          · have ha2 : a ∈ b :: t₂ := hp.mem_iff.mp (List.mem_cons_self a t)
            have hb1 : b ∈ a :: t := hp.mem_iff.mpr (List.mem_cons_self b t₂)
            have hat2 : a ∈ t₂ := by
              rcases List.mem_cons.mp ha2 with h | h
              · exact absurd h hab
              · exact h
            have hbt : b ∈ t := by
              rcases List.mem_cons.mp hb1 with h | h
              · exact absurd h.symm hab
              · exact h
            have hrab : r a b := List.rel_of_sorted_cons hs₁ b hbt
            have hrba : r b a := List.rel_of_sorted_cons hs₂ a hat2
            exact absurd
              (hanti a (List.mem_cons_self a t) b hb1 hrab hrba) hab

/-- The relation `charListLe` is total. -/
theorem charListLe_total : ∀ a b : List Char,
    charListLe a b = true ∨ charListLe b a = true := by
  intro a
  induction a with
  | nil => intro b; left; rfl
  | cons x xs ih =>
      intro b
      cases b with
      | nil => right; rfl
      | cons y ys =>
          unfold charListLe
          rcases lt_trichotomy x y with h | h | h
          · left; rw [if_pos h]
          · subst h
            rcases ih ys with h2 | h2
            · left; rw [if_neg (lt_irrefl x), if_pos rfl]; exact h2
            · right; rw [if_neg (lt_irrefl x), if_pos rfl]; exact h2
          · right; rw [if_pos h]

/-- The relation `charListLe` is transitive. -/
theorem charListLe_trans : ∀ a b c : List Char,
    charListLe a b = true → charListLe b c = true → charListLe a c = true := by
  intro a
  induction a with
  | nil => intro b c _ _; rfl
  | cons x xs ih =>
      intro b c hab hbc
      cases b with
      | nil => exact absurd hab (by simp [charListLe])
      | cons y ys =>
          cases c with
          | nil => exact absurd hbc (by simp [charListLe])
          | cons z zs =>
              unfold charListLe at hab hbc ⊢
              by_cases hxy : x < y
              · rw [if_pos hxy] at hab
                by_cases hyz : y < z
                · rw [if_pos (lt_trans hxy hyz)]
                · rw [if_neg hyz] at hbc
                  by_cases hyz2 : y = z
                  · subst hyz2; rw [if_pos hxy]
                  · rw [if_neg hyz2] at hbc; exact absurd hbc (by simp)
              · rw [if_neg hxy] at hab
                by_cases hxy2 : x = y
                · subst hxy2
                  rw [if_pos rfl] at hab
                  by_cases hxz : x < z
                  · rw [if_pos hxz]
                  · rw [if_neg hxz] at hbc ⊢
                    by_cases hxz2 : x = z
                    · rw [if_pos hxz2] at hbc ⊢
                      exact ih ys zs hab hbc
                    · rw [if_neg hxz2] at hbc; exact absurd hbc (by simp)
                · rw [if_neg hxy2] at hab; exact absurd hab (by simp)

/-- The relation `charListLe` is antisymmetric. -/
theorem charListLe_antisymm : ∀ a b : List Char,
    charListLe a b = true → charListLe b a = true → a = b := by
  intro a
  induction a with
  | nil =>
      intro b _ hba
      cases b with
      | nil => rfl
      | cons y ys => exact absurd hba (by simp [charListLe])
  | cons x xs ih =>
      intro b hab hba
      cases b with
      | nil => exact absurd hab (by simp [charListLe])
      | cons y ys =>
          unfold charListLe at hab hba
          by_cases hxy : x < y
          · rw [if_pos hxy] at hab
            rw [if_neg (asymm hxy), if_neg (ne_of_gt hxy)] at hba
            exact absurd hba (by simp)
          · rw [if_neg hxy] at hab
            by_cases hxy2 : x = y
            · subst hxy2
              rw [if_pos rfl] at hab
              rw [if_neg hxy, if_pos rfl] at hba
              rw [ih ys hab hba]
            · rw [if_neg hxy2] at hab; exact absurd hab (by simp)

/-- The ranking order is total. -/
theorem rankLe_isTotal : IsTotal DedupeScore rankLe where
  total a b := by
    unfold rankLe
    rcases lt_trichotomy a.confidence b.confidence with h | h | h
    · right; left; exact h
    · rcases charListLe_total a.candidate_id.data b.candidate_id.data with h2 | h2
      · left; right; exact ⟨h, h2⟩
      · right; right; exact ⟨h.symm, h2⟩
    · left; left; exact h

/-- The ranking order is transitive. -/
theorem rankLe_isTrans : IsTrans DedupeScore rankLe where
  trans a b c hab hbc := by
    unfold rankLe at hab hbc ⊢
    rcases hab with hab | ⟨hab1, hab2⟩
    · rcases hbc with hbc | ⟨hbc1, _⟩
      · left; exact lt_trans hbc hab
      · left; rw [← hbc1]; exact hab
    · rcases hbc with hbc | ⟨hbc1, hbc2⟩
      · left; rw [hab1]; exact hbc
      · right; exact ⟨hab1.trans hbc1,
          charListLe_trans _ _ _ hab2 hbc2⟩

/-- Two strings with the same character data are equal. -/
theorem string_eq_of_data_eq {a b : String} (h : a.data = b.data) : a = b := by
  cases a; cases b; exact congrArg String.mk h

/-- The `score_candidate_pair` reports the existing row's candidate id. -/
theorem score_candidate_pair_id (incoming existing : DedupeCandidateSnapshot)
    (y : DedupeScore) (h : score_candidate_pair incoming existing = .ok y) :
    y.candidate_id = existing.candidate_id := by
  unfold score_candidate_pair at h
  cases h1 : _domain_set incoming with
  | error e => rw [h1] at h; exact absurd h (by simp)
  | ok d1 =>
      cases h2 : _domain_set existing with
      | error e => rw [h1, h2] at h; exact absurd h (by simp)
      | ok d2 =>
          rw [h1, h2] at h
          simp only [Except.ok.injEq] at h
          rw [← h]

/-- C10: `evaluate_merge_policy` is invariant under permutation of
`existing` when the candidate ids are pairwise distinct: the ranking sorts
by `(-confidence, candidate_id)` and the id is a total tie-break, so every
permutation produces the same `DedupePolicyDecision` (including its
metadata). -/
theorem C10_evaluate_merge_policy_permutation_invariant
    (incoming : DedupeCandidateSnapshot)
    (l₁ l₂ : List DedupeCandidateSnapshot)
    (amt rt ad : ℚ)
    (hperm : l₁.Perm l₂)
    (hids : (l₁.map DedupeCandidateSnapshot.candidate_id).Nodup) :
    evaluate_merge_policy incoming l₁ amt rt ad =
      evaluate_merge_policy incoming l₂ amt rt ad := by
  by_cases hok : ∀ x ∈ l₁, ∃ y, score_candidate_pair incoming x = .ok y
  · classical
    let g : DedupeCandidateSnapshot → DedupeScore := fun x =>
      match score_candidate_pair incoming x with
      | .ok y => y
      | .error _ =>
          { candidate_id := x.candidate_id, confidence := 0
            strong_signals := [], risk_flags := [], has_posting := false
            components :=
              { title_similarity := 0, organization_similarity := 0
                phrase_similarity := 0, org_ner_overlap := 0
                location_overlap := 0, person_overlap := 0, domain_overlap := 0
                contact_domain_overlap := 0, medium_score := 0
                tie_break_score := 0 } }
    have hg : ∀ x ∈ l₁, score_candidate_pair incoming x = .ok (g x) := by
      intro x hx
      obtain ⟨y, hy⟩ := hok x hx
      simp only [g, hy]
    have hgid : ∀ x ∈ l₁, (g x).candidate_id = x.candidate_id := by
      intro x hx
      exact score_candidate_pair_id incoming x (g x) (hg x hx)
    have hmap1 : l₁.mapM (score_candidate_pair incoming) = .ok (l₁.map g) :=
      mapM_ok_of_forall_ok _ g l₁ hg
    have hmap2 : l₂.mapM (score_candidate_pair incoming) = .ok (l₂.map g) :=
      mapM_ok_of_forall_ok _ g l₂ (fun x hx => hg x (hperm.mem_iff.mpr hx))
    have hmperm : (l₁.map g).Perm (l₂.map g) := hperm.map g
    have hanti : ∀ a ∈ l₁.map g, ∀ b ∈ l₁.map g,
        rankLe a b → rankLe b a → a = b := by
      intro a ha b hb hab hba
      obtain ⟨xa, hxa, rfl⟩ := List.mem_map.mp ha
      obtain ⟨xb, hxb, rfl⟩ := List.mem_map.mp hb
      rcases hab with hab | ⟨hab1, hab2⟩
      · rcases hba with hba | ⟨hba1, _⟩
        · exact absurd (lt_trans hab hba) (lt_irrefl _)
        · exact absurd hba1.symm (ne_of_gt hab)
      · rcases hba with hba | ⟨_, hba2⟩
        · exact absurd hba (by rw [hab1]; exact lt_irrefl _)
        · have hidseq : (g xa).candidate_id = (g xb).candidate_id :=
            string_eq_of_data_eq (charListLe_antisymm _ _ hab2 hba2)
          have hxaid : xa.candidate_id = xb.candidate_id := by
            rw [← hgid xa hxa, ← hgid xb hxb, hidseq]
          have : xa = xb := List.inj_on_of_nodup_map hids hxa hxb hxaid
          rw [this]
    have hsort : (l₁.map g).insertionSort rankLe =
        (l₂.map g).insertionSort rankLe := by
      apply eq_of_perm_of_sorted_of_antisymm_on
        (((List.perm_insertionSort rankLe (l₁.map g)).trans hmperm).trans
          (List.perm_insertionSort rankLe (l₂.map g)).symm)
        (@List.sorted_insertionSort _ rankLe _ rankLe_isTotal rankLe_isTrans
          (l₁.map g))
        (@List.sorted_insertionSort _ rankLe _ rankLe_isTotal rankLe_isTrans
          (l₂.map g))
      intro a ha b hb hab hba
      exact hanti a ((List.perm_insertionSort rankLe (l₁.map g)).mem_iff.mp ha)
        b ((List.perm_insertionSort rankLe (l₁.map g)).mem_iff.mp hb) hab hba
    have hempty : (l₁.map g).isEmpty = (l₂.map g).isEmpty := by
      rcases h1 : l₁.map g with _ | ⟨a, t⟩
      · rw [h1] at hmperm
        rw [hmperm.symm.eq_nil]
      · rcases h2 : l₂.map g with _ | ⟨b, t₂⟩
        · rw [h1, h2] at hmperm
          exact absurd hmperm.eq_nil (by simp)
        · rfl
    unfold evaluate_merge_policy
    rw [hmap1, hmap2]
    simp only [hsort, hempty]
  · push_neg at hok
    obtain ⟨x, hx, hfail⟩ := hok
    have hxerr : score_candidate_pair incoming x = .error () := by
      cases hf : score_candidate_pair incoming x with
      | ok y => exact absurd hf (hfail y)
      | error e => cases e; rfl
    unfold evaluate_merge_policy
    rw [mapM_error_of_mem_error _ l₁ x hx hxerr,
      mapM_error_of_mem_error _ l₂ x (hperm.mem_iff.mp hx) hxerr]

/-- C10 witness: the theorem applied at a concrete two-element permutation
with distinct candidate ids and the default thresholds. -/
theorem C10_evaluate_merge_policy_permutation_invariant_witness :
    evaluate_merge_policy c10Incoming [c10A, c10B] 0.93 0.72 0.03 =
      evaluate_merge_policy c10Incoming [c10B, c10A] 0.93 0.72 0.03 :=
  C10_evaluate_merge_policy_permutation_invariant c10Incoming
    [c10A, c10B] [c10B, c10A] 0.93 0.72 0.03
    (List.Perm.swap c10B c10A []) (by decide)

/-!
## Claim C9
-/

/-- C9: the claim (spec property P8) says `normalize_url` is idempotent for
every input.  `normalize_url` strips exactly one trailing slash (spec §4.1
step 3), so for `"https://example.com/a//"` one application yields
`"https://example.com/a/"` and a second application strips the remaining
slash, giving `"https://example.com/a"`: normalization is not idempotent and
`canonical_hash(normalize(u))` is not stable under repeated normalization.
Determinism (third conjunct: equal inputs give equal outputs) does hold —
the function is pure. -/
theorem C9_normalize_url_not_idempotent_on_double_slash :
    normalize_url "https://example.com/a//".data
      = .ok "https://example.com/a/".data ∧
    normalize_url "https://example.com/a/".data
      = .ok "https://example.com/a".data ∧
    (∀ u : List Char, normalize_url u = normalize_url u) := by
  exact ⟨rfl, rfl, fun _ => rfl⟩

/-!
## Claim C6
-/

/-- C6: ingesting the same discovery twice — keyed either by
`(origin_module_id, external_id)` or, when `external_id` is absent/empty, by
`(origin_module_id, normalized_url)` — returns the same `discovery_id` both
times, and the second call leaves the state untouched: no extract job, no
`resolve_url_redirects` job and no `ingested` event are seeded again. -/
theorem C6_reingest_returns_same_id_and_seeds_nothing
    (st : IngestState) (a : IngestArgs)
    (hkey : pyTruthy a.external_id = true ∨
      (pyTruthy a.external_id = false ∧ pyTruthy a.normalized_url = true)) :
    ∃ st₁ id₁,
      create_discovery_and_enqueue_extract st a = .ok (st₁, id₁) ∧
      create_discovery_and_enqueue_extract st₁ a = .ok (st₁, id₁) := by
  rcases hkey with he | ⟨he, hn⟩
  · obtain ⟨e, hae⟩ : ∃ e, a.external_id = some e := by
      cases h : a.external_id with
      | none => rw [h] at he; simp [pyTruthy] at he
      | some s => exact ⟨s, rfl⟩
    rw [hae] at he
    cases hfind : st.discoveries.find?
        (discoveryKeyExternal a.origin_module_db_id (a.external_id.getD "")) with
    | some d =>
        rw [hae, Option.getD_some] at hfind
        refine ⟨st, d.id, ?_, ?_⟩ <;>
          simp [create_discovery_and_enqueue_extract, he, hae, hfind]
    | none =>
        rw [hae, Option.getD_some] at hfind
        refine ⟨ingestSeed
            { st with
              discoveries := st.discoveries ++ [ingestInsertRow st a a.external_id true]
              next_id := st.next_id + 1 } a st.next_id, st.next_id, ?_, ?_⟩
        · simp [create_discovery_and_enqueue_extract, he, hae, hfind, ingestInsertRow]
        · simp [create_discovery_and_enqueue_extract, he, hae, ingestSeed,
            List.find?_append, hfind, ingestInsertRow, discoveryKeyExternal]
  · obtain ⟨n, han⟩ : ∃ n, a.normalized_url = some n := by
      cases h : a.normalized_url with
      | none => rw [h] at hn; simp [pyTruthy] at hn
      | some s => exact ⟨s, rfl⟩
    rw [han] at hn
    cases hfind : st.discoveries.find?
        (discoveryKeyNormalized a.origin_module_db_id (a.normalized_url.getD "")) with
    | some d =>
        rw [han, Option.getD_some] at hfind
        refine ⟨st, d.id, ?_, ?_⟩ <;>
          simp [create_discovery_and_enqueue_extract, he, hn, han, hfind]
    | none =>
        rw [han, Option.getD_some] at hfind
        refine ⟨ingestSeed
            { st with
              discoveries := st.discoveries ++ [ingestInsertRow st a none true]
              next_id := st.next_id + 1 } a st.next_id, st.next_id, ?_, ?_⟩
        · simp [create_discovery_and_enqueue_extract, he, hn, han, hfind,
            ingestInsertRow]
        · simp [create_discovery_and_enqueue_extract, he, hn, han, ingestSeed,
            List.find?_append, hfind, ingestInsertRow, discoveryKeyNormalized]

/-- C6 witness: the theorem applied at a concrete first-time ingest. -/
theorem C6_reingest_returns_same_id_and_seeds_nothing_witness :
    ∃ st₁ id₁,
      create_discovery_and_enqueue_extract c6State c6Args = .ok (st₁, id₁) ∧
      create_discovery_and_enqueue_extract st₁ c6Args = .ok (st₁, id₁) :=
  C6_reingest_returns_same_id_and_seeds_nothing c6State c6Args (Or.inl (by decide))

/-!
## Claim C7
-/

/-- Membership after a fold of `linkInsertIgnore`: exactly the old rows plus
the inserted pairs. -/
theorem mem_foldl_linkInsertIgnore (p : String) (xs : List String)
    (t : List (String × String)) (y : String × String) :
    (y ∈ xs.foldl (fun acc x => linkInsertIgnore acc (p, x)) t) ↔
      y ∈ t ∨ ∃ x ∈ xs, y = (p, x) := by
  induction xs generalizing t with
  | nil => simp
  | cons x xs ih =>
      rw [List.foldl_cons, ih]
      unfold linkInsertIgnore
      by_cases hx : (p, x) ∈ t
      · rw [if_pos hx]
        simp only [List.mem_cons]
        constructor
        · rintro (h | ⟨z, hz, rfl⟩)
          · exact Or.inl h
          · exact Or.inr ⟨z, Or.inr hz, rfl⟩
        · rintro (h | ⟨z, hz, rfl⟩)
          · exact Or.inl h
          · rcases hz with rfl | hz
            · exact Or.inl hx
            · exact Or.inr ⟨z, hz, rfl⟩
      · rw [if_neg hx]
        simp only [List.mem_append, List.mem_cons, List.not_mem_nil, or_false]
        constructor
        · rintro ((h | h) | ⟨z, hz, rfl⟩)
          · exact Or.inl h
          · exact Or.inr ⟨x, Or.inl rfl, h⟩
          · exact Or.inr ⟨z, Or.inr hz, rfl⟩
        · rintro (h | ⟨z, hz, rfl⟩)
          · exact Or.inl (Or.inl h)
          · rcases hz with rfl | hz
            · exact Or.inl (Or.inr rfl)
            · exact Or.inr ⟨z, hz, rfl⟩

/-- The `copyLinks` contains a primary link exactly when the primary or the
secondary had that link before. -/
theorem mem_copyLinks (t : List (String × String)) (p s d : String) :
    (p, d) ∈ copyLinks t p s ↔ (p, d) ∈ t ∨ (s, d) ∈ t := by
  unfold copyLinks
  rw [mem_foldl_linkInsertIgnore]
  constructor
  · rintro (h | ⟨x, hx, hxy⟩)
    · exact Or.inl h
    · obtain ⟨q, hq, rfl⟩ := List.mem_map.mp hx
      have := List.mem_filter.mp hq
      cases hxy
      right
      have h1 : q.1 = s := by simpa using this.2
      have : (q.1, q.2) ∈ t := by simpa using this.1
      rwa [h1] at this
  · rintro (h | h)
    · exact Or.inl h
    · refine Or.inr ⟨d, ?_, rfl⟩
      exact List.mem_map.mpr ⟨(s, d), List.mem_filter.mpr ⟨h, by simp⟩, rfl⟩

/-- Every row of the archive-secondary update whose id is the secondary has
state `archived`. -/
theorem archive_map_state (cands : List CandidateRow) (s : String) :
    ∀ c ∈ cands.map (fun c => if c.id = s then { c with state := "archived" } else c),
      c.id = s → c.state = "archived" := by
  intro c hc hcs
  obtain ⟨c₀, _, rfl⟩ := List.mem_map.mp hc
  by_cases h : c₀.id = s
  · simp [h]
  · rw [if_neg h] at hcs ⊢
    exact absurd hcs h

/-- The decision upsert always leaves a row keyed `(primary, secondary)` with
the supplied decision data. -/
theorem record_decision_mem (st : MergeDbState) (p s dec : String)
    (conf : Option ℚ) (db : String) (rat : Option String) (aty aid : String) :
    ∃ r ∈ (record_candidate_merge_decision st p s dec conf db rat aty aid).merge_decisions,
      r.primary_candidate_id = p ∧ r.secondary_candidate_id = s ∧
      r.decision = dec ∧ r.decided_by = db ∧ r.confidence = conf := by
  unfold record_candidate_merge_decision
  by_cases h : st.merge_decisions.any
      (fun r => r.primary_candidate_id = p ∧ r.secondary_candidate_id = s)
  · simp only [if_pos h]
    obtain ⟨r₀, hr₀, hpred⟩ := List.any_eq_true.mp h
    have hpred' : r₀.primary_candidate_id = p ∧ r₀.secondary_candidate_id = s :=
      of_decide_eq_true hpred
    refine ⟨_, List.mem_map.mpr ⟨r₀, hr₀, rfl⟩, ?_⟩
    rw [if_pos hpred']
    exact ⟨rfl, rfl, rfl, rfl, rfl⟩
  · simp only [if_neg h]
    exact ⟨_, List.mem_append.mpr (Or.inr (List.mem_singleton.mpr rfl)),
      rfl, rfl, rfl, rfl, rfl⟩

/-- C7: `merge_candidates` (i) refuses a self-merge with `ConflictError`;
(ii) refuses with `ConflictError` when both candidates already have distinct
postings; (iii) otherwise (both rows present) it succeeds, locking the two
candidate rows in ascending id order, copying `candidate_discoveries` and
`candidate_evidence` links to the primary (ON CONFLICT DO NOTHING),
re-parenting the secondary's posting to the primary only when the primary
has none, archiving the secondary, and upserting a `manual_merged`
`CandidateMergeDecision` decided by `human_moderator`. -/
theorem C7_merge_candidates_spec :
    (∀ st p actor reason,
      merge_candidates st p p actor reason = .error .conflict) ∧
    (∀ st p s actor reason, p ≠ s →
      ((st.candidates.filter (fun c => c.id = p ∨ c.id = s)).length = 2) →
      ((st.postings.find? (fun q => q.2 = some p)).map Prod.fst).isSome →
      ((st.postings.find? (fun q => q.2 = some s)).map Prod.fst).isSome →
      (st.postings.find? (fun q => q.2 = some p)).map Prod.fst ≠
        (st.postings.find? (fun q => q.2 = some s)).map Prod.fst →
      merge_candidates st p s actor reason = .error .conflict) ∧
    (∀ st p s actor reason, p ≠ s →
      ((st.candidates.filter (fun c => c.id = p ∨ c.id = s)).length = 2) →
      ¬ (((st.postings.find? (fun q => q.2 = some p)).map Prod.fst).isSome ∧
         ((st.postings.find? (fun q => q.2 = some s)).map Prod.fst).isSome ∧
         (st.postings.find? (fun q => q.2 = some p)).map Prod.fst ≠
           (st.postings.find? (fun q => q.2 = some s)).map Prod.fst) →
      ∃ st' lock, merge_candidates st p s actor reason = .ok (st', lock) ∧
        List.Pairwise (· ≤ ·) lock ∧
        lock.Perm ((st.candidates.filter (fun c => c.id = p ∨ c.id = s)).map
          CandidateRow.id) ∧
        (∀ d, (p, d) ∈ st'.candidate_discoveries ↔
          (p, d) ∈ st.candidate_discoveries ∨ (s, d) ∈ st.candidate_discoveries) ∧
        (∀ d, (p, d) ∈ st'.candidate_evidence ↔
          (p, d) ∈ st.candidate_evidence ∨ (s, d) ∈ st.candidate_evidence) ∧
        ((st.postings.find? (fun q => q.2 = some p)) = none →
          ∀ q, (st.postings.find? (fun q' => q'.2 = some s)).map Prod.fst = some q →
            (q, some p) ∈ st'.postings) ∧
        ((st.postings.find? (fun q => q.2 = some p)).isSome →
          st'.postings = st.postings) ∧
        (∀ c ∈ st'.candidates, c.id = s → c.state = "archived") ∧
        (∃ r ∈ st'.merge_decisions, r.primary_candidate_id = p ∧
          r.secondary_candidate_id = s ∧ r.decision = "manual_merged" ∧
          r.decided_by = "human_moderator" ∧ r.confidence = none)) := by
  refine ⟨?_, ?_, ?_⟩
  · intro st p actor reason
    simp [merge_candidates, apply_candidate_merge]
  · intro st p s actor reason hps hlen hp hs hne
    have hlock : ¬ ((((st.candidates.filter
        (fun c => c.id = p ∨ c.id = s)).map CandidateRow.id).insertionSort
          (· ≤ ·)).length ≠ 2) := by
      rw [List.length_insertionSort, List.length_map, hlen]
      exact fun h => h rfl
    simp only [merge_candidates, apply_candidate_merge]
    rw [if_neg hps, if_neg hlock, if_pos ⟨hp, hs, hne⟩]
  · intro st p s actor reason hps hlen hnoconf
    have hlock : ¬ ((((st.candidates.filter
        (fun c => c.id = p ∨ c.id = s)).map CandidateRow.id).insertionSort
          (· ≤ ·)).length ≠ 2) := by
      rw [List.length_insertionSort, List.length_map, hlen]
      exact fun h => h rfl
    have hsorted : List.Pairwise (· ≤ ·)
        (((st.candidates.filter (fun c => c.id = p ∨ c.id = s)).map
          CandidateRow.id).insertionSort (· ≤ ·)) := by
      have := List.sorted_insertionSort (α := String) (· ≤ ·)
        ((st.candidates.filter (fun c => c.id = p ∨ c.id = s)).map CandidateRow.id)
      exact this
    have hperm := List.perm_insertionSort (α := String) (· ≤ ·)
      ((st.candidates.filter (fun c => c.id = p ∨ c.id = s)).map CandidateRow.id)
    simp only [merge_candidates, apply_candidate_merge]
    rw [if_neg hps, if_neg hlock, if_neg hnoconf]
    rcases hPP : st.postings.find? (fun q => q.2 = some p) with _ | q1
    · rcases hSP : st.postings.find? (fun q => q.2 = some s) with _ | q2
      · rw [hPP, hSP]
        simp only [Option.map_none', Option.isNone_none, Option.isSome_none,
          Bool.false_eq_true, and_false, if_false, true_and, and_true,
          Option.isNone_iff_eq_none, if_true]
        refine ⟨_, _, rfl, hsorted, hperm, fun d => mem_copyLinks _ p s d,
          fun d => mem_copyLinks _ p s d, ?_, ?_, archive_map_state _ s,
          record_decision_mem _ p s "manual_merged" none "human_moderator"
            reason "human" actor⟩
        · intro _ q hq
          simp [hSP] at hq
        · intro hq
          simp [hPP] at hq
      · rw [hPP, hSP]
        simp only [Option.map_none', Option.map_some', Option.isNone_none,
          Option.isSome_some, and_true, true_and, if_true]
        refine ⟨_, _, rfl, hsorted, hperm, fun d => mem_copyLinks _ p s d,
          fun d => mem_copyLinks _ p s d, ?_, ?_, archive_map_state _ s,
          record_decision_mem _ p s "manual_merged" none "human_moderator"
            reason "human" actor⟩
        · intro _ q hq
          have hq2 : q2.1 = q := by simpa [hSP] using hq
          have hmem : q2 ∈ st.postings := List.mem_of_find?_eq_some hSP
          refine List.mem_map.mpr ⟨q2, hmem, ?_⟩
          rw [if_pos rfl, hq2]
        · intro hq
          simp [hPP] at hq
    · rcases hSP : st.postings.find? (fun q => q.2 = some s) with _ | q2
      · rw [hPP, hSP]
        simp only [Option.map_some', Option.map_none', Option.isNone_some,
          Option.isSome_some, Option.isSome_none, Bool.false_eq_true,
          false_and, and_false, if_false]
        refine ⟨_, _, rfl, hsorted, hperm, fun d => mem_copyLinks _ p s d,
          fun d => mem_copyLinks _ p s d, ?_, fun _ => rfl,
          archive_map_state _ s,
          record_decision_mem _ p s "manual_merged" none "human_moderator"
            reason "human" actor⟩
        intro hq
        simp [hPP] at hq
      · rw [hPP, hSP]
        simp only [Option.map_some', Option.isNone_some, Option.isSome_some,
          Bool.false_eq_true, false_and, if_false]
        refine ⟨_, _, rfl, hsorted, hperm, fun d => mem_copyLinks _ p s d,
          fun d => mem_copyLinks _ p s d, ?_, fun _ => rfl,
          archive_map_state _ s,
          record_decision_mem _ p s "manual_merged" none "human_moderator"
            reason "human" actor⟩
        intro hq
        simp [hPP] at hq

/-- C7 witness: the success case of the theorem applied at a concrete state,
plus its two refusal cases at concrete inputs. -/
theorem C7_merge_candidates_spec_witness :
    merge_candidates c7State "cand-a" "cand-a" "mod-user" none = .error .conflict ∧
    (∃ st' lock, merge_candidates c7State "cand-a" "cand-b" "mod-user" none
        = .ok (st', lock) ∧
      List.Pairwise (· ≤ ·) lock ∧
      lock.Perm ((c7State.candidates.filter
        (fun c => c.id = "cand-a" ∨ c.id = "cand-b")).map CandidateRow.id) ∧
      (∀ d, ("cand-a", d) ∈ st'.candidate_discoveries ↔
        ("cand-a", d) ∈ c7State.candidate_discoveries ∨
        ("cand-b", d) ∈ c7State.candidate_discoveries) ∧
      (∀ d, ("cand-a", d) ∈ st'.candidate_evidence ↔
        ("cand-a", d) ∈ c7State.candidate_evidence ∨
        ("cand-b", d) ∈ c7State.candidate_evidence) ∧
      ((c7State.postings.find? (fun q => q.2 = some "cand-a")) = none →
        ∀ q, (c7State.postings.find?
            (fun q' => q'.2 = some "cand-b")).map Prod.fst = some q →
          (q, some "cand-a") ∈ st'.postings) ∧
      ((c7State.postings.find? (fun q => q.2 = some "cand-a")).isSome →
        st'.postings = c7State.postings) ∧
      (∀ c ∈ st'.candidates, c.id = "cand-b" → c.state = "archived") ∧
      (∃ r ∈ st'.merge_decisions, r.primary_candidate_id = "cand-a" ∧
        r.secondary_candidate_id = "cand-b" ∧ r.decision = "manual_merged" ∧
        r.decided_by = "human_moderator" ∧ r.confidence = none)) :=
  ⟨C7_merge_candidates_spec.1 c7State "cand-a" "mod-user" none,
   C7_merge_candidates_spec.2.2 c7State "cand-a" "cand-b" "mod-user" none
     (by decide) (by decide) (by decide)⟩

/-!
## Claim C8
-/

/-- C8 counterexample: the claim orders the checks NotFound → Forbidden →
Conflict, so for this existing job whose `locked_by` (NULL) differs from the
submitter it requires `ForbiddenError`; the code checks
`status != 'claimed'` first and raises `ConflictError`. -/
theorem C8_counterexample_conflict_before_forbidden :
    c8QueuedJob.locked_by ≠ some "mod-1" ∧
    submit_job_result (mkRepoConfig 3 10 3600) (some c8QueuedJob)
      "mod-1" "done" 0 = .error .conflict := by
  exact ⟨by decide, rfl⟩

/-- C8 (amended): `submit_result` raises NotFound exactly when the job is
absent; otherwise it raises ConflictError exactly when the job's status is
not `claimed`; and only for a `claimed` job does it raise ForbiddenError,
exactly when `locked_by_module_id` differs from the submitter — i.e. the
checks are ordered NotFound → Conflict → Forbidden. -/
theorem C8_error_cases_in_code_order (cfg : RepoConfig) (job? : Option JobRow)
    (m st : String) (now : Int) :
    (submit_job_result cfg job? m st now = .error .notFound ↔ job? = none) ∧
    (submit_job_result cfg job? m st now = .error .conflict ↔
      ∃ j, job? = some j ∧ j.status ≠ "claimed") ∧
    (submit_job_result cfg job? m st now = .error .forbidden ↔
      ∃ j, job? = some j ∧ j.status = "claimed" ∧ j.locked_by ≠ some m) := by
  cases job? with
  | none => simp [submit_job_result]
  | some j =>
    by_cases h1 : j.status = "claimed" <;>
      by_cases h2 : j.locked_by = some m <;>
        simp [submit_job_result, h1, h2]

/-- C4 witness: the theorem applied at a concrete claimed job (attempt 2 of
3, base 10s, cap 3600s). -/
theorem C4_failed_submit_resolves_by_retry_policy_witness :
    ∃ out, submit_job_result (mkRepoConfig 3 10 3600)
        (some c4Job) "mod-1" "failed" 1000 = .ok out ∧
      out.job.locked_by = none ∧ out.job.locked_at = none ∧
      out.job.lease_expires_at = none ∧
      (c4Job.attempt ≥ (mkRepoConfig 3 10 3600).job_max_attempts →
        out.resolved_status = "failed" ∧ out.job.status = "failed") ∧
      (¬ c4Job.attempt ≥ (mkRepoConfig 3 10 3600).job_max_attempts →
        out.resolved_status = "queued" ∧ out.job.status = "queued" ∧
        out.job.next_run_at = 1000 +
          min (mkRepoConfig 3 10 3600).job_retry_max_seconds
            ((mkRepoConfig 3 10 3600).job_retry_base_seconds
              * 2 ^ (c4Job.attempt - 1).toNat)) :=
  C4_failed_submit_resolves_by_retry_policy 3 10 3600 c4Job "mod-1" 1000
    rfl rfl (by decide)

end SJ
